import Mathlib

/-!
Verification of the a11y-mermaid-studio core pipeline.

The JavaScript sources are shallowly embedded over `List Char`:
strings become character lists, and the regex-based extraction
functions are translated into their (deterministic) operational
behaviour, which is justified in the comments next to each
definition.  JS `\s` also matches a handful of Unicode space
characters; the embedding restricts the whitespace class to the
ASCII whitespace characters, which is the range exercised by the
program's own sources and tests.
-/

/-- The fragment of the JS `\s`/`trim` whitespace class used here: ASCII
whitespace plus the two Unicode line separators (which the JS `.` also
excludes, keeping the two classes complementary on line terminators). -/
def isWSChar (c : Char) : Bool :=
  c = ' ' || (c = '\t' || (c = '\n' || (c = '\r' ||
    (c = Char.ofNat 11 || (c = Char.ofNat 12 ||
      (c = Char.ofNat 8232 || c = Char.ofNat 8233))))))

/-- Characters matched by the JS regex `.` (anything but a line terminator). -/
def isDotChar (c : Char) : Bool :=
  !(c = '\n' || c = '\r' || c = Char.ofNat 8232 || c = Char.ofNat 8233)

/-- Model of `String.prototype.trim`: drop whitespace from both ends. -/
def jsTrim (l : List Char) : List Char :=
  ((l.dropWhile isWSChar).reverse.dropWhile isWSChar).reverse

/-- Model of `source.split('\n')`.  Like JS `split`, the result is never empty:
splitting the empty string yields `[[]]`. -/
def splitNl : List Char → List (List Char)
  | [] => [[]]
  | c :: rest =>
    if c = '\n' then [] :: splitNl rest
    else
      match splitNl rest with
      | [] => [[c]]
      | h :: t => (c :: h) :: t

/-- Model of `Array.prototype.join('\n')`. -/
def joinNl : List (List Char) → List Char
  | [] => []
  | [x] => x
  | x :: y :: t => x ++ '\n' :: joinNl (y :: t)

/-- Model of `s.startsWith(pat)` (first argument is the pattern). -/
def startsWithL : List Char → List Char → Bool
  | [], _ => true
  | _ :: _, [] => false
  | p :: ps, s :: ss => p = s && startsWithL ps ss

/-- Substring test: does `pat` occur contiguously inside `s`? -/
def containsSub (pat : List Char) : List Char → Bool
  | [] => startsWithL pat []
  | s@(_ :: rest) => startsWithL pat s || containsSub pat rest

/-- Model of `source.endsWith('\n')` restricted to the newline test used by
`ensureMetadata`. -/
def endsWithNl (l : List Char) : Bool :=
  match l.getLast? with
  | some c => c = '\n'
  | none => false

/-- Helper of `skipFrontmatter`: scan the lines after the opening fence for the
first line whose trim is `---` and return the lines strictly after it
(the JS loop `for (let i = 1; ...)` with `lines.slice(i + 1)`). -/
def fmAfterClose : List (List Char) → Option (List (List Char))
  | [] => none
  | l :: ls => if jsTrim l = "---".toList then some ls else fmAfterClose ls

/-- Model of `skipFrontmatter` (src/FRONTMATTER_SUPPORT.md lines 32-44):
trim the source, split into lines; if the first line trims to `---`, find the
next line trimming to `---` and return everything after it joined with
newlines; otherwise (or when no closing fence exists) return the original
source unchanged. -/
def skipFrontmatter (source : List Char) : List Char :=
  match splitNl (jsTrim source) with
  | [] => source
  | l0 :: rest =>
    if jsTrim l0 = "---".toList then
      match fmAfterClose rest with
      | some tail => joinNl tail
      | none => source
    else source

/-- The branch condition under which `skipFrontmatter` modifies its input:
the first trimmed line is `---` and a closing `---` line exists. -/
def hasFrontmatterBlock (source : List Char) : Bool :=
  match splitNl (jsTrim source) with
  | [] => false
  | l0 :: rest => jsTrim l0 = "---".toList && (fmAfterClose rest).isSome

/-- First trimmed line of the trimmed source, as read by `detectDiagramType`
(`source.trim().split('\n')` then `lines[0].trim()`). -/
def firstLineOf (source : List Char) : List Char :=
  match splitNl (jsTrim source) with
  | [] => []
  | l :: _ => jsTrim l

/-- Model of `detectDiagramType` (src/unnamed/part_003 lines 2101-2128): an
ordered chain of `startsWith` tests on the first trimmed line of the trimmed
source; unmatched input yields "unknown". -/
def detectDiagramType (source : List Char) : String :=
  let firstLine := firstLineOf source
  if startsWithL "flowchart".toList firstLine || startsWithL "graph".toList firstLine then
    "flowchart"
  else if startsWithL "pie".toList firstLine then "pie"
  else if startsWithL "classDiagram".toList firstLine then "classDiagram"
  else if startsWithL "sequenceDiagram".toList firstLine then "sequenceDiagram"
  else if startsWithL "gantt".toList firstLine then "gantt"
  else if startsWithL "journey".toList firstLine then "journey"
  else if startsWithL "mindmap".toList firstLine then "mindmap"
  else if startsWithL "timeline".toList firstLine then "timeline"
  else if startsWithL "xychart".toList firstLine then "xychart"
  else if startsWithL "stateDiagram".toList firstLine then "stateDiagram"
  else "unknown"

/-- Behaviour of the trailing regex `\s*(.+)` on the remainder `r`, with
greedy backtracking, returning the captured group. -/
def capAfter (r : List Char) : Option (List Char) :=
  let w := r.dropWhile isWSChar
  if w.isEmpty then
    match r.reverse.find? isDotChar with
    | some c => some [c]
    | none => none
  else some (w.takeWhile isDotChar)

/-- Attempt of the pattern `%%\s*kw\s*(.+)` anchored at the start of `s`. -/
def matchKwAt (kw : List Char) (s : List Char) : Option (List Char) :=
  match s with
  | c1 :: c2 :: r1 =>
    if c1 = '%' && c2 = '%' then
      let r2 := r1.dropWhile isWSChar
      if startsWithL kw r2 then capAfter (r2.drop kw.length) else none
    else none
  | _ => none

/-- First-match search of the pattern `%%\s*kw\s*(.+)` over all start
positions of `s`, as performed by `String.prototype.match`. -/
def findKw (kw : List Char) : List Char → Option (List Char)
  | [] => none
  | s@(_ :: rest) =>
    match matchKwAt kw s with
    | some t => some t
    | none => findKw kw rest

/-- The `{title, description}` pair returned by `parseMermaidMetadata`. -/
structure MMeta where
  title : Option (List Char)
  description : Option (List Char)

def kwTitle : List Char := "accTitle".toList

def kwDescr : List Char := "accDescr".toList

/-- Model of `parseMermaidMetadata` (part_003 lines 1834-1842): each field is
the trimmed first capture of its pattern, or null when there is no match. -/
def parseMermaidMetadata (src : List Char) : MMeta :=
  { title := (findKw kwTitle src).map jsTrim
    description := (findKw kwDescr src).map jsTrim }

/-- JS truthiness of a `string | null` field: `null` and `""` are falsy. -/
def truthyOpt : Option (List Char) → Bool
  | none => false
  | some t => !t.isEmpty

def titleDefaultLine : List Char := "%%accTitle Untitled Diagram".toList

def descrDefaultLine : List Char :=
  "%%accDescr Auto-generated description for accessibility. Please customize.".toList

/-- Return value of `ensureMetadata`. -/
structure EnsureResult where
  source : List Char
  metadata : MMeta
  added : Bool

/-- Model of `ensureMetadata` (src/unnamed/part_003 lines 2988-3010): parse
the metadata; for each falsy field queue the default annotation line; when
anything was queued, append the queued lines (newline-joined, preceded by a
newline unless the source already ends with one, followed by a final
newline) at the end of the source; re-parse the updated source. -/
def ensureMetadata (source : List Char) : EnsureResult :=
  let current := parseMermaidMetadata source
  let needT := !truthyOpt current.title
  let needD := !truthyOpt current.description
  let lines :=
    (if needT then [titleDefaultLine] else []) ++ (if needD then [descrDefaultLine] else [])
  let added := needT || needD
  let updated :=
    if added then source ++ (if endsWithNl source then [] else ['\n']) ++ joinNl lines ++ ['\n']
    else source
  { source := updated, metadata := parseMermaidMetadata updated, added := added }

/-- Inputs whose whitespace-only suffixes consist of line terminators only;
this rules out the degenerate backtracking capture of `\s*(.+)`. -/
def nlOnlyWS (u : List Char) : Prop :=
  ∀ r : List Char, r <:+ u → r.all isWSChar = true → r.all (fun c => !isDotChar c) = true

def isIdChar (c : Char) : Bool :=
  ('A' ≤ c && c ≤ 'Z') || ('0' ≤ c && c ≤ '9')

/-- First alternative `^([A-Z0-9]+)\[([^\]]+)\]` of the node regex. -/
def parseNodeSq (l : List Char) : Option (List Char × List Char) :=
  let idr := l.takeWhile isIdChar
  if idr.isEmpty then none
  else
    match l.drop idr.length with
    | '[' :: r2 =>
      let txt := r2.takeWhile (fun c => !(c = ']'))
      if txt.isEmpty then none
      else
        match r2.drop txt.length with
        | ']' :: _ => some (idr, txt)
        | _ => none
    | _ => none

/-- Second alternative of the node regex: the curly-brace (question) form. -/
def parseNodeBr (l : List Char) : Option (List Char × List Char) :=
  let idr := l.takeWhile isIdChar
  if idr.isEmpty then none
  else
    match l.drop idr.length with
    | c :: r2 =>
      if c = Char.ofNat 123 then
        let txt := r2.takeWhile (fun d => !(d = Char.ofNat 125))
        if txt.isEmpty then none
        else
          match r2.drop txt.length with
          | d :: _ => if d = Char.ofNat 125 then some (idr, txt) else none
          | _ => none
      else none
    | _ => none

/-- Anchored node regex: bracket alternative first, then the brace one; the
boolean is `isQuestion` (true only for the brace form). -/
def parseNodeLine (l : List Char) : Option (List Char × List Char × Bool) :=
  match parseNodeSq l with
  | some (i, t) => some (i, t, false)
  | none =>
    match parseNodeBr l with
    | some (i, t) => some (i, t, true)
    | none => none

/-- Labelled-edge regex attempted at one start position. -/
def edgeLabelAt (s : List Char) : Option (List Char × List Char × List Char) :=
  let f := s.takeWhile isIdChar
  if f.isEmpty then none
  else
    let r1 := (s.drop f.length).dropWhile isWSChar
    if startsWithL "-->".toList r1 then
      match (r1.drop 3).dropWhile isWSChar with
      | '|' :: r3 =>
        let lab := r3.takeWhile (fun c => !(c = '|'))
        if lab.isEmpty then none
        else
          match r3.drop lab.length with
          | '|' :: r4 =>
            let tnode := (r4.dropWhile isWSChar).takeWhile isIdChar
            if tnode.isEmpty then none else some (f, lab, tnode)
          | _ => none
      | _ => none
    else none

/-- Unlabelled-edge regex attempted at one start position. -/
def edgePlainAt (s : List Char) : Option (List Char × List Char) :=
  let f := s.takeWhile isIdChar
  if f.isEmpty then none
  else
    let r1 := (s.drop f.length).dropWhile isWSChar
    if startsWithL "-->".toList r1 then
      let tnode := ((r1.drop 3).dropWhile isWSChar).takeWhile isIdChar
      if tnode.isEmpty then none else some (f, tnode)
    else none

def scanEdgeLabel : List Char → Option (List Char × List Char × List Char)
  | [] => none
  | s@(_ :: rest) =>
    match edgeLabelAt s with
    | some x => some x
    | none => scanEdgeLabel rest

def scanEdgePlain : List Char → Option (List Char × List Char)
  | [] => none
  | s@(_ :: rest) =>
    match edgePlainAt s with
    | some x => some x
    | none => scanEdgePlain rest

/-- JS `Map.set`: overwrite in place when the key exists, else append. -/
def mapSetNode (m : List (List Char × List Char × Bool)) (id txt : List Char) (q : Bool) :
    List (List Char × List Char × Bool) :=
  if m.any (fun e => e.1 = id) then m.map (fun e => if e.1 = id then (id, txt, q) else e)
  else m ++ [(id, txt, q)]

/-- JS `Map.get` on the node map: `(displayText, isQuestion)`. -/
def mapGetNode (m : List (List Char × List Char × Bool)) (id : List Char) :
    Option (List Char × Bool) :=
  match m.find? (fun e => e.1 = id) with
  | some e => some (e.2.1, e.2.2)
  | none => none

/-- The comment/blank filtering and declaration-line skip shared by the
narrative generators (`source.split`, two filters, `slice(1)`). -/
def narrativeLines (source : List Char) : List (List Char) :=
  (((splitNl source).filter (fun l => !startsWithL "%%".toList (jsTrim l))).filter
    (fun l => !(jsTrim l).isEmpty)).tail

/-- Structural model built by `generateFlowchartNarrative`: the node map and
the edge list (from, to, optional label), in line order. -/
def flowchartModel (source : List Char) :
    List (List Char × List Char × Bool) × List (List Char × List Char × Option (List Char)) :=
  (narrativeLines source).foldl
    (fun acc line =>
      let l := jsTrim line
      let nodes :=
        match parseNodeLine l with
        | some (i, t, q) => mapSetNode acc.1 i t q
        | none => acc.1
      let edges :=
        match scanEdgeLabel l with
        | some (f, lab, t) => acc.2 ++ [(f, t, some lab)]
        | none =>
          match scanEdgePlain l with
          | some (f, t) => acc.2 ++ [(f, t, none)]
          | none => acc.2
      (nodes, edges))
    ([], [])

/-- Model of `escapeHtml` (part_003 lines 2695-2699): the `div.textContent`
then `innerHTML` round trip escapes the markup-significant characters. -/
def escapeHtml : List Char → List Char
  | [] => []
  | c :: rest =>
    (if c = '&' then "&amp;".toList
     else if c = '<' then "&lt;".toList
     else if c = '>' then "&gt;".toList
     else [c]) ++ escapeHtml rest

def natStr (n : Nat) : List Char := (toString n).toList

/-- One list item of the flowchart narrative for an edge whose endpoints both
resolve in the node map. -/
def flowchartEdgeItem (fn : List Char × Bool) (tn : List Char × Bool)
    (lab : Option (List Char)) : List Char :=
  if fn.2 then
    match lab with
    | some l =>
      "<li>If <em>".toList ++ escapeHtml fn.1 ++ "</em> is <strong>".toList ++ escapeHtml l ++
        "</strong>, then → <strong>".toList ++ escapeHtml tn.1 ++ "</strong></li>\n".toList
    | none =>
      "<li>From <em>".toList ++ escapeHtml fn.1 ++ "</em> → <strong>".toList ++
        escapeHtml tn.1 ++ "</strong></li>\n".toList
  else
    match lab with
    | some l =>
      "<li>After <strong>".toList ++ escapeHtml fn.1 ++ "</strong>, <em>".toList ++
        escapeHtml l ++ "</em> → <strong>".toList ++ escapeHtml tn.1 ++ "</strong></li>\n".toList
    | none =>
      "<li><strong>".toList ++ escapeHtml fn.1 ++ "</strong> → <strong>".toList ++
        escapeHtml tn.1 ++ "</strong></li>\n".toList

/-- Model of `generateFlowchartNarrative` (part_003 lines 2133-2213). -/
def generateFlowchartNarrative (source : List Char) : List Char :=
  let m := flowchartModel source
  let nodes := m.1
  let edges := m.2
  let core :=
    match nodes with
    | [] => "<li>No flowchart steps detected.</li>\n".toList
    | first :: _ =>
      "<li>Start at: <strong>".toList ++ escapeHtml first.2.1 ++ "</strong></li>\n".toList ++
        edges.foldl (fun acc e =>
          match mapGetNode nodes e.1, mapGetNode nodes e.2.1 with
          | some fn, some tn => acc ++ flowchartEdgeItem fn tn e.2.2
          | _, _ => acc) []
  let questions := (nodes.filter (fun n => n.2.2)).length
  "<p><strong>Flow:</strong></p>\n<ol>\n".toList ++ core ++ "</ol>\n".toList ++
    "<p style=\"color: #666; font-size: 0.9em; margin-top: 1rem;\">".toList ++
    "<strong>Structure:</strong> ".toList ++ natStr nodes.length ++ " node".toList ++
    (if nodes.length ≠ 1 then "s".toList else []) ++ ", ".toList ++ natStr edges.length ++
    " connection".toList ++ (if edges.length ≠ 1 then "s".toList else []) ++
    (if questions > 0 then
      ", ".toList ++ natStr questions ++ " decision point".toList ++
        (if questions ≠ 1 then "s".toList else [])
    else []) ++ "</p>".toList

def isPieLabelChar (c : Char) : Bool := !(c = '"' || c = '\'' || c = ':')

def isDigitChar (c : Char) : Bool := '0' ≤ c && c ≤ '9'

def digitsToNat (ds : List Char) : Nat :=
  ds.foldl (fun a c => a * 10 + (c.toNat - 48)) 0

/-- Parse `\d+(?:\.\d+)?` at a position, as an exact rational. -/
def parsePieValue (r : List Char) : Option ℚ :=
  let ds := r.takeWhile isDigitChar
  if ds.isEmpty then none
  else
    let intPart : ℚ := (digitsToNat ds : ℚ)
    match r.drop ds.length with
    | '.' :: r2 =>
      let fs := r2.takeWhile isDigitChar
      if fs.isEmpty then some intPart
      else some (intPart + (digitsToNat fs : ℚ) / ((10 : ℚ) ^ fs.length))
    | _ => some intPart

/-- The `["']?\s*:\s*value` tail after the label capture. -/
def pieTailMatch (r : List Char) : Option ℚ :=
  let r1 := match r with
    | c :: rest => if c = '"' || c = '\'' then rest else r
    | [] => r
  match r1.dropWhile isWSChar with
  | ':' :: r3 => parsePieValue (r3.dropWhile isWSChar)
  | _ => none

/-- The pie data regex attempted at one start position: optional quote, then
the maximal label run, then the tail. -/
def pieMatchAt (l : List Char) : Option (List Char × ℚ) :=
  let l' := match l with
    | c :: rest => if c = '"' || c = '\'' then rest else l
    | [] => l
  let lab := l'.takeWhile isPieLabelChar
  if lab.isEmpty then none
  else
    match pieTailMatch (l'.drop lab.length) with
    | some v => some (lab, v)
    | none => none

def pieFirstMatch : List Char → Option (List Char × ℚ)
  | [] => none
  | s@(_ :: rest) =>
    match pieMatchAt s with
    | some x => some x
    | none => pieFirstMatch rest

/-- The `data` array of `generatePieNarrative`: `(trimmed label, value)` per
matching data line, in line order. -/
def pieDataOf (source : List Char) : List (List Char × ℚ) :=
  (narrativeLines source).foldl
    (fun acc line =>
      match pieFirstMatch (jsTrim line) with
      | some (lab, v) => acc ++ [(jsTrim lab, v)]
      | none => acc)
    []

/-- The running `total` accumulated while parsing. -/
def pieTotal (source : List Char) : ℚ := ((pieDataOf source).map Prod.snd).sum

/-- `data.sort((a, b) => b.value - a.value)`: stable descending sort. -/
def pieSorted (source : List Char) : List (List Char × ℚ) :=
  (pieDataOf source).mergeSort (fun a b => decide (b.2 ≤ a.2))

/-- `Number.prototype.toFixed(1)` on a non-negative value, as an exact
rational: round to the nearest tenth. -/
def round1 (q : ℚ) : ℚ := ((⌊q * 10 + 1 / 2⌋ : ℤ) : ℚ) / 10

/-- The percentage reported for each narrated segment, in narration order:
`total > 0 ? ((value / total) * 100).toFixed(1) : 0`. -/
def pieReported (source : List Char) : List ℚ :=
  (pieSorted source).map
    (fun s => if 0 < pieTotal source then round1 (s.2 / pieTotal source * 100) else 0)

inductive XNode where
  | text (s : List Char)
  | elem (tag : String) (attrs : List (String × String)) (children : List XNode)

def getAttrL (attrs : List (String × String)) (k : String) : Option String :=
  match attrs.find? (fun p => p.1 = k) with
  | some p => some p.2
  | none => none

/-- `Element.setAttribute`: overwrite in place or append a new attribute. -/
def setAttrL (attrs : List (String × String)) (k v : String) : List (String × String) :=
  if attrs.any (fun p => p.1 = k) then attrs.map (fun p => if p.1 = k then (k, v) else p)
  else attrs ++ [(k, v)]

/-- Whitespace-separated tokens of a `class` attribute value. -/
def wsTokensAux : List Char → List Char → List (List Char)
  | [], acc => if acc.isEmpty then [] else [acc.reverse]
  | c :: rest, acc =>
    if isWSChar c then
      (if acc.isEmpty then wsTokensAux rest [] else acc.reverse :: wsTokensAux rest [])
    else wsTokensAux rest (c :: acc)

def wsTokens (l : List Char) : List (List Char) := wsTokensAux l []

def hasClass (attrs : List (String × String)) (cls : String) : Bool :=
  match getAttrL attrs "class" with
  | some s => (wsTokens s.toList).any (fun t => t = cls.toList)
  | none => false

def isElemNamed (name : String) : XNode → Bool
  | .elem t _ _ => t = name
  | .text _ => false

/-- Selector `g.node` (flowchart node groups). -/
def isNodeGroup : XNode → Bool
  | .elem t a _ => t = "g" && hasClass a "node"
  | .text _ => false

/-- Selector `g.edgePath, g.edgeLabel, g.edgePaths`. -/
def isEdgeGroup : XNode → Bool
  | .elem t a _ =>
    t = "g" && (hasClass a "edgePath" || (hasClass a "edgeLabel" || hasClass a "edgePaths"))
  | .text _ => false

/-- Selector `rect, circle, ellipse, polygon, path` (decorative shapes). -/
def isShapeElem : XNode → Bool
  | .elem t _ _ =>
    t = "rect" || (t = "circle" || (t = "ellipse" || (t = "polygon" || t = "path")))
  | .text _ => false

/-- Selector `[id^="flowchart-"]` (the flowchart structural marker). -/
def idStartsFlowchart : XNode → Bool
  | .elem _ a _ =>
    match getAttrL a "id" with
    | some s => startsWithL "flowchart-".toList s.toList
    | none => false
  | .text _ => false

def existsDesc (p : XNode → Bool) : List XNode → Bool
  | [] => false
  | n :: rest =>
    (p n || (match n with
      | .elem _ _ c => existsDesc p c
      | .text _ => false)) || existsDesc p rest

def countDescP (p : XNode → Bool) : List XNode → Nat
  | [] => 0
  | .text s :: rest => (if p (XNode.text s) then 1 else 0) + countDescP p rest
  | .elem t a c :: rest =>
    ((if p (XNode.elem t a c) then 1 else 0) + countDescP p c) + countDescP p rest

/-- `element.querySelector(sel).remove()`: remove the first descendant (in
document order) matching `p`; the boolean reports whether one was found. -/
def removeFirstL (p : XNode → Bool) : List XNode → List XNode × Bool
  | [] => ([], false)
  | n :: rest =>
    if p n then (rest, true)
    else
      match n with
      | .text s =>
        let r := removeFirstL p rest
        (.text s :: r.1, r.2)
      | .elem t a c =>
        let rc := removeFirstL p c
        if rc.2 then (.elem t a rc.1 :: rest, true)
        else
          let r := removeFirstL p rest
          (.elem t a c :: r.1, r.2)

/-- Locate the first match strictly below the top level: the boolean is
whether the matching node has a next sibling. -/
def locateDeep (p : XNode → Bool) : List XNode → Option Bool
  | [] => none
  | n :: rest =>
    if p n then some (!rest.isEmpty)
    else
      match n with
      | .text _ => locateDeep p rest
      | .elem _ _ c =>
        match locateDeep p c with
        | some b => some b
        | none => locateDeep p rest

/-- Locate the first descendant match in document order: `inl i` when it is
a direct child at index `i`, `inr hasNext` when it sits deeper. -/
def locateFirst (p : XNode → Bool) : List XNode → Option (Nat ⊕ Bool)
  | [] => none
  | n :: rest =>
    if p n then some (Sum.inl 0)
    else
      match n with
      | .text _ =>
        (match locateFirst p rest with
          | some (Sum.inl i) => some (Sum.inl (i + 1))
          | some (Sum.inr b) => some (Sum.inr b)
          | none => none)
      | .elem _ _ c =>
        match locateDeep p c with
        | some b => some (Sum.inr b)
        | none =>
          match locateFirst p rest with
          | some (Sum.inl i) => some (Sum.inl (i + 1))
          | some (Sum.inr b) => some (Sum.inr b)
          | none => none

def insertAtL (i : Nat) (x : XNode) (l : List XNode) : List XNode :=
  l.take i ++ x :: l.drop i

/-- Insertion index of the description node, from
`svg.insertBefore(desc, svg.querySelector('title')?.nextSibling || svg.firstChild)`:
after the first title when that title is a direct child with a next sibling;
at the front when there is no title, when the found title is the last direct
child, or when a deeper title has no next sibling; and a thrown
`NotFoundError` (`none`) when a deeper title has a next sibling, since that
sibling is not a child of the root. -/
def descInsertPos (children : List XNode) : Option Nat :=
  match locateFirst (isElemNamed "title") children with
  | none => some 0
  | some (Sum.inl i) => some (if i + 1 < children.length then i + 1 else 0)
  | some (Sum.inr hasNext) => if hasNext then none else some 0

def textContentList : List XNode → List Char
  | [] => []
  | .text s :: rest => s ++ textContentList rest
  | .elem _ _ c :: rest => textContentList c ++ textContentList rest

def textContentN : XNode → List Char
  | .text s => s
  | .elem _ _ c => textContentList c

/-- `querySelectorAll('text')` on a child list, in document order. -/
def collectTextElems : List XNode → List XNode
  | [] => []
  | .text _ :: rest => collectTextElems rest
  | .elem t a c :: rest =>
    (if t = "text" then [XNode.elem t a c] else []) ++
      (collectTextElems c ++ collectTextElems rest)

/-- The node-text accumulation `nodeText += textEl.textContent.trim() + ' '`. -/
def joinNodeTexts (ts : List XNode) : List Char :=
  ts.foldl (fun acc te => acc ++ jsTrim (textContentN te) ++ [' ']) []

/-- Set `aria-hidden="true"` on every descendant matching `p`. -/
def hideMatching (p : XNode → Bool) : List XNode → List XNode
  | [] => []
  | .text s :: rest => .text s :: hideMatching p rest
  | .elem t a c :: rest =>
    (XNode.elem t (if p (.elem t a c) then setAttrL a "aria-hidden" "true" else a)
      (hideMatching p c)) :: hideMatching p rest

/-- Hide every `text` element after the first (in document order), with `k`
counting the `text` elements already visited. -/
def hideTextsAfterFirst : Nat → List XNode → Nat × List XNode
  | k, [] => (k, [])
  | k, .text s :: rest =>
    let r := hideTextsAfterFirst k rest
    (r.1, .text s :: r.2)
  | k, .elem t a c :: rest =>
    let a2 := if t = "text" && decide (0 < k) then setAttrL a "aria-hidden" "true" else a
    let k1 := if t = "text" then k + 1 else k
    let rc := hideTextsAfterFirst k1 c
    let rr := hideTextsAfterFirst rc.1 rest
    (rr.1, .elem t a2 rc.2 :: rr.2)

/-- Selector `defs marker`: hide markers with a `defs` ancestor. -/
def hideMarkersL : Bool → List XNode → List XNode
  | _, [] => []
  | inDefs, .text s :: rest => .text s :: hideMarkersL inDefs rest
  | inDefs, .elem t a c :: rest =>
    (XNode.elem t (if inDefs && t = "marker" then setAttrL a "aria-hidden" "true" else a)
      (hideMarkersL (inDefs || t = "defs") c)) :: hideMarkersL inDefs rest

/-- The per-node-group body of the `nodeGroups.forEach` loop (part_003 lines
1980-2021): role, text extraction, title replacement, shape hiding, and
fragmented-text hiding, applied to a group with tag `t`, attributes `a` and
(already recursively processed) children `c`. -/
def transformNodeGroupElem (t : String) (a : List (String × String)) (c : List XNode) : XNode :=
  let a1 := setAttrL a "role" "listitem"
  let ts := collectTextElems c
  let ntext := jsTrim (joinNodeTexts ts)
  let c1 := (removeFirstL (isElemNamed "title") c).1
  let c2 := if ntext.isEmpty then c1 else XNode.elem "title" [] [.text ntext] :: c1
  let c3 := hideMatching isShapeElem c2
  let c4 := if 1 < ts.length then (hideTextsAfterFirst 0 c3).2 else c3
  XNode.elem t a1 c4

/-- The snapshot `forEach` over `querySelectorAll('g.node')`. -/
def transformGroupsL : List XNode → List XNode
  | [] => []
  | .text s :: rest => .text s :: transformGroupsL rest
  | .elem t a c :: rest =>
    (if t = "g" && hasClass a "node" then transformNodeGroupElem t a (transformGroupsL c)
     else XNode.elem t a (transformGroupsL c)) :: transformGroupsL rest

/-- The child-list transformation of `applyFlowchartSemantics`: skip unless
the flowchart marker is present and at least one node group exists, then run
the group loop, hide edge groups and hide markers under `defs`. -/
def applyFSChildren (c : List XNode) : List XNode :=
  if existsDesc idStartsFlowchart c then
    (if countDescP isNodeGroup c = 0 then c
     else hideMarkersL false (hideMatching isEdgeGroup (transformGroupsL c)))
  else c

/-- Model of `applyFlowchartSemantics` (part_003 lines 1954-2039). -/
def applyFlowchartSemantics : XNode → XNode
  | .text s => .text s
  | .elem t a c => XNode.elem t a (applyFSChildren c)

/-- The `{title, description}` metadata handed to the transformer. -/
structure SvgMetadata where
  title : Option (List Char)
  description : Option (List Char)

/-- Steps 4 of the transformer: remove the first pre-existing `title` and
`desc` descendants (`svg.querySelector('title')/('desc')` then `remove()`). -/
def a11yStrippedChildren (c : List XNode) : List XNode :=
  (removeFirstL (isElemNamed "desc") (removeFirstL (isElemNamed "title") c).1).1

/-- Step 5a of the transformer: prepend the new title node (text and id)
when the title metadata is truthy. -/
def a11yWithTitle (m : SvgMetadata) (titleId : String) (c : List XNode) : List XNode :=
  if truthyOpt m.title then
    XNode.elem "title" [("id", titleId)] [.text (m.title.getD [])] :: a11yStrippedChildren c
  else a11yStrippedChildren c

/-- Step 5b of the transformer: insert the new desc node at the position
computed by `descInsertPos` when the description metadata is truthy; `none`
is the thrown `insertBefore` exception. -/
def a11yWithDesc (m : SvgMetadata) (descId : String) (c3 : List XNode) : Option (List XNode) :=
  if truthyOpt m.description then
    match descInsertPos c3 with
    | none => none
    | some i =>
      some (insertAtL i (XNode.elem "desc" [("id", descId)] [.text (m.description.getD [])]) c3)
  else some c3

/-- Steps 2 and 5c of the transformer: `role="img"` and the
`aria-labelledby` id list (both ids, title first, when both fields are
truthy; the title id alone when only the title is). -/
def a11yRootAttrs (m : SvgMetadata) (a : List (String × String)) (titleId descId : String) :
    List (String × String) :=
  let a1 := setAttrL a "role" "img"
  if truthyOpt m.title && truthyOpt m.description then
    setAttrL a1 "aria-labelledby" (titleId ++ " " ++ descId)
  else if truthyOpt m.title then setAttrL a1 "aria-labelledby" titleId
  else a1

/-- Model of `applyAccessibilityTransformations` (part_003 lines 1855-1903);
`none` models the only DOM exception the function can raise (the
`insertBefore` reference-node error described at `descInsertPos`). -/
def applyAccessibilityTransformations (doc : XNode) (metadata : SvgMetadata)
    (titleId descId : String) : Option XNode :=
  match doc with
  | .text _ => none
  | .elem t a c =>
    match a11yWithDesc metadata descId (a11yWithTitle metadata titleId c) with
    | none => none
    | some c4 =>
      match applyFlowchartSemantics (XNode.elem t (a11yRootAttrs metadata a titleId descId) c4) with
      | .elem t2 a3 c5 =>
        some (XNode.elem t2 (setAttrL a3 "xmlns" "http://www.w3.org/2000/svg") c5)
      | .text s => some (.text s)

def findFirstDesc (p : XNode → Bool) : List XNode → Option XNode
  | [] => none
  | n :: rest =>
    if p n then some n
    else
      match n with
      | .text _ => findFirstDesc p rest
      | .elem _ _ c =>
        match findFirstDesc p c with
        | some m => some m
        | none => findFirstDesc p rest

/-- `doc.querySelector('parsererror')`: on a `Document` the root element
itself is also a candidate. -/
def docQueryParseError (root : XNode) : Option XNode :=
  if isElemNamed "parsererror" root then some root
  else
    match root with
    | .elem _ _ c => findFirstDesc (isElemNamed "parsererror") c
    | .text _ => none

/-- Model of `parseSvgSafely` (part_003 lines 3445-3455): `ok` plus the
`parsererror` text when present (the `catch` branch is dead code, since
`parseFromString` does not throw for `image/svg+xml`). -/
def parseSvgSafely (root : XNode) : Bool × Option (List Char) :=
  match docQueryParseError root with
  | some e => (false, some (textContentN e))
  | none => (true, none)

def getAttrN (n : XNode) (k : String) : Option String :=
  match n with
  | .elem _ a _ => getAttrL a k
  | .text _ => none

def rootAttrCount (n : XNode) (k : String) : Nat :=
  match n with
  | .elem _ a _ => a.countP (fun p => p.1 = k)
  | .text _ => 0

def rootChildCount (p : XNode → Bool) (n : XNode) : Nat :=
  match n with
  | .elem _ _ c => c.countP p
  | .text _ => 0

def XNode.isElemNode : XNode → Bool
  | .elem _ _ _ => true
  | .text _ => false

/-- The new `<title>` node prepended by the transformer. -/
def titleNode (tid : String) (tt : List Char) : XNode :=
  XNode.elem "title" [("id", tid)] [.text tt]

/-- The new `<desc>` node inserted by the transformer. -/
def descNode (did : String) (dd : List Char) : XNode :=
  XNode.elem "desc" [("id", did)] [.text dd]

/-- The three child-list passes run by `applyFlowchartSemantics` when the
flowchart branch is taken. -/
def fsPasses (l : List XNode) : List XNode :=
  hideMarkersL false (hideMatching isEdgeGroup (transformGroupsL l))

/-- An element carrying `role="listitem"`. -/
def isListitem : XNode → Bool
  | .elem _ a _ => getAttrL a "role" = some "listitem"
  | .text _ => false

/-- An element marked `aria-hidden="true"`. -/
def isHiddenB : XNode → Bool
  | .elem _ a _ => getAttrL a "aria-hidden" = some "true"
  | .text _ => false

/-- Every descendant satisfying `p` also satisfies `q`. -/
def allDescSat (p q : XNode → Bool) : List XNode → Bool
  | [] => true
  | .text s :: r => (!p (XNode.text s) || q (XNode.text s)) && allDescSat p q r
  | .elem t a c :: r =>
    ((!p (XNode.elem t a c) || q (XNode.elem t a c)) && allDescSat p q c) && allDescSat p q r

/-- Every `marker` element below a `defs` ancestor (tracked by the flag) is
marked hidden. -/
def markersHiddenB : Bool → List XNode → Bool
  | _, [] => true
  | b, .text _ :: r => markersHiddenB b r
  | b, .elem t a c :: r =>
    ((if b && t = "marker" then isHiddenB (XNode.elem t a c) else true) &&
      markersHiddenB (b || t = "defs") c) && markersHiddenB b r

/-- Well-formedness of a renderer-produced flowchart tree, as assumed by the
semantics pass: no element already carries `role="listitem"`, and no node
group contains a nested node group or a pre-existing `title` element. -/
def wf9 : List XNode → Bool
  | [] => true
  | .text _ :: r => wf9 r
  | .elem t a c :: r =>
    ((!(getAttrL a "role" = some "listitem")) &&
      ((!(t = "g" && hasClass a "node")) ||
        (countDescP isNodeGroup c = 0 && countDescP (isElemNamed "title") c = 0))) &&
    (wf9 c && wf9 r)

theorem skipFrontmatter_id_of_no_block (y : List Char)
    (h : hasFrontmatterBlock y = false) : skipFrontmatter y = y := by
  unfold hasFrontmatterBlock at h
  unfold skipFrontmatter
  cases hs : splitNl (jsTrim y) with
  | nil => rfl
  | cons l0 rest =>
    rw [hs] at h
    have h' : (decide (jsTrim l0 = "---".toList) && (fmAfterClose rest).isSome) = false := h
    show (if jsTrim l0 = "---".toList then
        (match fmAfterClose rest with
          | some tail => joinNl tail
          | none => y)
      else y) = y
    by_cases h0 : jsTrim l0 = "---".toList
    · rw [if_pos h0]
      cases hc : fmAfterClose rest with
      | none => rfl
      | some tail =>
        rw [hc] at h'
        simp [h0] at h'
    · rw [if_neg h0]

/-- C2 counterexample: on `---\n---\n---\n---` one pass strips the leading
fenced block and leaves `---\n---`, which a second pass strips to the empty
string, so stripping twice differs from stripping once. -/
theorem frontmatter_strip_not_idempotent :
    skipFrontmatter (skipFrontmatter "---\n---\n---\n---".toList) ≠
      skipFrontmatter "---\n---\n---\n---".toList := by
  decide

/-- C2 (amended): frontmatter stripping is idempotent on every input whose
stripped output does not itself begin with a complete fenced block (opening
`---` line with a matching closing `---` line); on such inputs a second pass
returns its input unchanged. -/
theorem frontmatter_strip_idempotent_of_no_block (x : List Char)
    (h : hasFrontmatterBlock (skipFrontmatter x) = false) :
    skipFrontmatter (skipFrontmatter x) = skipFrontmatter x :=
  skipFrontmatter_id_of_no_block _ h

/-- Witness for the amended C2 theorem at a concrete input with frontmatter. -/
theorem frontmatter_strip_idempotent_witness :
    hasFrontmatterBlock (skipFrontmatter "---\na: b\n---\ngraph TD\n  A[Go]".toList) = false ∧
      skipFrontmatter (skipFrontmatter "---\na: b\n---\ngraph TD\n  A[Go]".toList) =
        skipFrontmatter "---\na: b\n---\ngraph TD\n  A[Go]".toList :=
  ⟨by decide, frontmatter_strip_idempotent_of_no_block "---\na: b\n---\ngraph TD\n  A[Go]".toList
    (by decide)⟩

/-- C3: the classifier in the shipped code recognises only ten dialect
prefixes, so the er-diagram source from the repository's own test suite
(`should detect erDiagram` in src/unnamed/part_004) is classified "unknown"
instead of "erDiagram". -/
theorem detectDiagramType_erDiagram_unknown :
    detectDiagramType "erDiagram\n  CUSTOMER ONE-TO-MANY ORDER : places".toList = "unknown" := by
  decide

/-- C4: the classifier in the shipped code never strips frontmatter, so the
fenced source from the specification scenario is classified by its first line
`---` and yields "unknown" instead of "pie" (contradicting
src/tests/frontmatter.test.js and src/FRONTMATTER_SUPPORT.md). -/
theorem detectDiagramType_frontmatter_unknown :
    detectDiagramType "---\nconfig:\n  theme: dark\n---\n\npie\n\"Dogs\":1".toList = "unknown" := by
  decide

/-! ### Metadata extraction

`parseMermaidMetadata` (src/unnamed/part_003 lines 1834-1842) evaluates
`source.match(/%%\s*accTitle\s*(.+)/)` and the `accDescr` analogue.  A
first-match regex search is equivalent to the following deterministic scan:
at the first position where `%%` is followed by (maximal) whitespace and
then the keyword, the tail `\s*(.+)` captures the maximal run of
non-line-terminator characters starting at the first non-whitespace
character; when the remainder is whitespace only, greedy backtracking
instead captures the last non-line-terminator whitespace character, if
any (that capture trims to the empty string). -/

theorem startsWithL_iff (p s : List Char) :
    startsWithL p s = true ↔ ∃ s', s = p ++ s' := by
  induction p generalizing s with
  | nil => simp [startsWithL]
  | cons c cs ih =>
    cases s with
    | nil =>
      simp only [startsWithL, List.cons_append]
      constructor
      · intro h; cases h
      · rintro ⟨s', hs'⟩; cases hs'
    | cons d ds =>
      simp only [startsWithL, Bool.and_eq_true, decide_eq_true_eq, List.cons_append, ih]
      constructor
      · rintro ⟨rfl, s', rfl⟩; exact ⟨s', rfl⟩
      · rintro ⟨s', hs'⟩
        injection hs' with h1 h2
        exact ⟨h1.symm, s', h2⟩

theorem startsWithL_self_append (p t : List Char) : startsWithL p (p ++ t) = true :=
  (startsWithL_iff p (p ++ t)).2 ⟨t, rfl⟩

theorem isDot_of_not_isWS (c : Char) (h : isWSChar c = false) : isDotChar c = true := by
  simp only [isWSChar, Bool.or_eq_false_iff, decide_eq_false_iff_not] at h
  simp only [isDotChar, Bool.not_eq_true', Bool.or_eq_false_iff, decide_eq_false_iff_not]
  exact ⟨⟨⟨h.2.2.1, h.2.2.2.1⟩, h.2.2.2.2.2.2.1⟩, h.2.2.2.2.2.2.2⟩

theorem capAfter_isSome_of_dot (r : List Char) (h : ∃ c ∈ r, isDotChar c = true) :
    (capAfter r).isSome = true := by
  unfold capAfter
  by_cases hw : (r.dropWhile isWSChar).isEmpty
  · rw [if_pos hw]
    obtain ⟨c, hc, hdot⟩ := h
    have : (r.reverse.find? isDotChar).isSome := by
      rw [List.find?_isSome]
      exact ⟨c, List.mem_reverse.2 hc, hdot⟩
    obtain ⟨d, hd⟩ := Option.isSome_iff_exists.1 this
    rw [hd]
    rfl
  · rw [if_neg hw]
    rfl

theorem capAfter_dot_of_isSome (r : List Char) (h : (capAfter r).isSome = true) :
    ∃ c ∈ r, isDotChar c = true := by
  unfold capAfter at h
  by_cases hw : (r.dropWhile isWSChar).isEmpty
  · rw [if_pos hw] at h
    cases hf : r.reverse.find? isDotChar with
    | none => rw [hf] at h; cases h
    | some c =>
      have h1 := List.find?_some hf
      have h2 := List.mem_of_find?_eq_some hf
      exact ⟨c, List.mem_reverse.1 h2, h1⟩
  · rw [if_neg hw] at h
    cases hd : r.dropWhile isWSChar with
    | nil => rw [hd] at hw; cases hw rfl
    | cons c cs =>
      have hc : isWSChar c = false := by
        have h3 := List.head_dropWhile_not isWSChar r (by rw [hd]; exact List.cons_ne_nil c cs)
        simp only [hd, List.head_cons] at h3
        exact h3
      refine ⟨c, ?_, isDot_of_not_isWS c hc⟩
      exact (List.dropWhile_suffix isWSChar).subset (by rw [hd]; exact List.mem_cons_self c cs)

theorem capAfter_append_isSome (r t : List Char) (h : (capAfter r).isSome = true) :
    (capAfter (r ++ t)).isSome = true := by
  apply capAfter_isSome_of_dot
  obtain ⟨c, hc, hdot⟩ := capAfter_dot_of_isSome r h
  exact ⟨c, List.mem_append_left t hc, hdot⟩

theorem matchKwAt_append_isSome (kw s t : List Char) (hk : kw ≠ [])
    (h : (matchKwAt kw s).isSome = true) : (matchKwAt kw (s ++ t)).isSome = true := by
  cases s with
  | nil => simp [matchKwAt] at h
  | cons c1 s1 =>
    cases s1 with
    | nil => simp [matchKwAt] at h
    | cons c2 r1 =>
      have hred : matchKwAt kw (c1 :: c2 :: r1) =
          if c1 = '%' && c2 = '%' then
            (if startsWithL kw (r1.dropWhile isWSChar) then
              capAfter ((r1.dropWhile isWSChar).drop kw.length)
            else none)
          else none := rfl
      rw [hred] at h
      by_cases hpc : (c1 = '%' && c2 = '%') = true
      · rw [if_pos hpc] at h
        by_cases hsw : startsWithL kw (r1.dropWhile isWSChar) = true
        · rw [if_pos hsw] at h
          obtain ⟨r2', hr2'⟩ := (startsWithL_iff _ _).1 hsw
          obtain ⟨k, ks, rfl⟩ : ∃ k ks, kw = k :: ks := by
            cases kw with
            | nil => cases hk rfl
            | cons k ks => exact ⟨k, ks, rfl⟩
          have hne : (r1.dropWhile isWSChar).isEmpty = false := by
            rw [hr2']; rfl
          have hdw : (r1 ++ t).dropWhile isWSChar = r1.dropWhile isWSChar ++ t := by
            rw [List.dropWhile_append, hne]; rfl
          have hred2 : matchKwAt (k :: ks) ((c1 :: c2 :: r1) ++ t) =
              if c1 = '%' && c2 = '%' then
                (if startsWithL (k :: ks) ((r1 ++ t).dropWhile isWSChar) then
                  capAfter (((r1 ++ t).dropWhile isWSChar).drop (k :: ks).length)
                else none)
              else none := rfl
          rw [hr2', List.drop_left] at h
          have hsw2 : startsWithL (k :: ks) (((k :: ks) ++ r2') ++ t) = true := by
            rw [List.append_assoc]; exact startsWithL_self_append _ _
          have hgoal : matchKwAt (k :: ks) ((c1 :: c2 :: r1) ++ t) = capAfter (r2' ++ t) := by
            rw [hred2, if_pos hpc, hdw, hr2']
            show (if startsWithL (k :: ks) (((k :: ks) ++ r2') ++ t) = true then
                capAfter ((((k :: ks) ++ r2') ++ t).drop (k :: ks).length)
              else none) = capAfter (r2' ++ t)
            rw [if_pos hsw2, List.append_assoc, List.drop_left]
          rw [hgoal]
          exact capAfter_append_isSome r2' t h
        · rw [if_neg hsw] at h; cases h
      · rw [if_neg hpc] at h; cases h

theorem findKw_of_matchKwAt (kw pre suf : List Char)
    (h : (matchKwAt kw suf).isSome = true) : (findKw kw (pre ++ suf)).isSome = true := by
  induction pre with
  | nil =>
    cases suf with
    | nil => simp [matchKwAt] at h
    | cons c rest =>
      obtain ⟨v, hv⟩ := Option.isSome_iff_exists.1 h
      show (match matchKwAt kw (c :: rest) with
        | some t => some t
        | none => findKw kw rest).isSome = true
      rw [hv]
      rfl
  | cons p ps ih =>
    show (match matchKwAt kw (p :: (ps ++ suf)) with
      | some t => some t
      | none => findKw kw (ps ++ suf)).isSome = true
    cases hm : matchKwAt kw (p :: (ps ++ suf)) with
    | some v => rfl
    | none => exact ih

theorem findKw_append_isSome (kw s t : List Char) (hk : kw ≠ [])
    (h : (findKw kw s).isSome = true) : (findKw kw (s ++ t)).isSome = true := by
  induction s with
  | nil => simp [findKw] at h
  | cons c rest ih =>
    have hs : findKw kw (c :: rest) =
        match matchKwAt kw (c :: rest) with
        | some v => some v
        | none => findKw kw rest := rfl
    have hs2 : findKw kw ((c :: rest) ++ t) =
        match matchKwAt kw ((c :: rest) ++ t) with
        | some v => some v
        | none => findKw kw (rest ++ t) := rfl
    rw [hs] at h
    rw [hs2]
    cases hm : matchKwAt kw (c :: rest) with
    | some v =>
      have h2 := matchKwAt_append_isSome kw (c :: rest) t hk (by rw [hm]; rfl)
      obtain ⟨w, hw⟩ := Option.isSome_iff_exists.1 h2
      rw [hw]
      rfl
    | none =>
      rw [hm] at h
      have h3 := ih h
      cases hm2 : matchKwAt kw ((c :: rest) ++ t) with
      | some v => rfl
      | none => exact h3

theorem trim_ne_nil_of_head_not_ws (h : Char) (l : List Char) (hh : isWSChar h = false) :
    jsTrim (h :: l) ≠ [] := by
  unfold jsTrim
  rw [List.dropWhile_cons_of_neg (by simp [hh])]
  intro hcontr
  rw [List.reverse_eq_nil_iff, List.dropWhile_eq_nil_iff] at hcontr
  have hmem : h ∈ (h :: l).reverse := by simp
  have := hcontr h hmem
  rw [this] at hh
  cases hh

theorem nlOnlyWS_of_ends (w : List Char) (c : Char) (hc : isWSChar c = false) :
    nlOnlyWS (w ++ [c, '\n']) := by
  intro r hr hall
  rcases List.suffix_or_suffix_of_suffix hr (List.suffix_append w [c, '\n']) with h1 | h2
  · obtain ⟨p, hp⟩ := h1
    match p, hp with
    | [], hp =>
      have hr2 : r = [c, '\n'] := by simpa using hp
      rw [hr2] at hall
      have := (List.all_eq_true.1 hall) c (by simp)
      rw [this] at hc
      cases hc
    | [x], hp =>
      have hr2 : r = ['\n'] := by
        have := hp
        injection this with _ h2
      rw [hr2]
      decide
    | [x, y], hp =>
      have hr2 : r = [] := by
        have hlen := congrArg List.length hp
        simp at hlen
        exact hlen
      rw [hr2]
      decide
    | x :: y :: z :: ps, hp =>
      exfalso
      have hlen := congrArg List.length hp
      simp at hlen
  · exfalso
    obtain ⟨p, hp⟩ := h2
    have hcmem : c ∈ r := by rw [← hp]; simp
    have := (List.all_eq_true.1 hall) c hcmem
    rw [this] at hc
    cases hc

theorem capAfter_trim_ne_nil (r u : List Char) (hr : r <:+ u) (hP : nlOnlyWS u)
    (t : List Char) (hcap : capAfter r = some t) : jsTrim t ≠ [] := by
  unfold capAfter at hcap
  by_cases hw : (r.dropWhile isWSChar).isEmpty
  · exfalso
    rw [if_pos hw] at hcap
    have hallws : r.all isWSChar = true := by
      rw [List.isEmpty_iff] at hw
      rw [List.all_eq_true]
      exact fun x hx => List.dropWhile_eq_nil_iff.1 hw x hx
    cases hf : r.reverse.find? isDotChar with
    | none => rw [hf] at hcap; cases hcap
    | some c =>
      have h1 := List.find?_some hf
      have h2 := List.mem_reverse.1 (List.mem_of_find?_eq_some hf)
      have h3 := (List.all_eq_true.1 (hP r hr hallws)) c h2
      rw [h1] at h3
      cases h3
  · rw [if_neg hw] at hcap
    cases hd : r.dropWhile isWSChar with
    | nil => rw [hd] at hw; cases hw rfl
    | cons hd0 tl =>
      have hc : isWSChar hd0 = false := by
        have h3 := List.head_dropWhile_not isWSChar r (by rw [hd]; exact List.cons_ne_nil hd0 tl)
        simp only [hd, List.head_cons] at h3
        exact h3
      rw [hd, List.takeWhile_cons_of_pos (by simp [isDot_of_not_isWS hd0 hc])] at hcap
      injection hcap with hcap2
      rw [← hcap2]
      exact trim_ne_nil_of_head_not_ws hd0 _ hc

theorem matchKwAt_capAfter (kw s t : List Char) (h : matchKwAt kw s = some t) :
    ∃ r, r <:+ s ∧ capAfter r = some t := by
  cases s with
  | nil => simp [matchKwAt] at h
  | cons c1 s1 =>
    cases s1 with
    | nil => simp [matchKwAt] at h
    | cons c2 r1 =>
      have hred : matchKwAt kw (c1 :: c2 :: r1) =
          if c1 = '%' && c2 = '%' then
            (if startsWithL kw (r1.dropWhile isWSChar) then
              capAfter ((r1.dropWhile isWSChar).drop kw.length)
            else none)
          else none := rfl
      rw [hred] at h
      by_cases hpc : (c1 = '%' && c2 = '%') = true
      · rw [if_pos hpc] at h
        by_cases hsw : startsWithL kw (r1.dropWhile isWSChar) = true
        · rw [if_pos hsw] at h
          refine ⟨(r1.dropWhile isWSChar).drop kw.length, ?_, h⟩
          have s1 : (r1.dropWhile isWSChar).drop kw.length <:+ r1.dropWhile isWSChar :=
            List.drop_suffix _ _
          have s2 : r1.dropWhile isWSChar <:+ r1 := List.dropWhile_suffix _
          have s3 : r1 <:+ c1 :: c2 :: r1 :=
            (List.suffix_cons c2 r1).trans (List.suffix_cons c1 (c2 :: r1))
          exact (s1.trans s2).trans s3
        · rw [if_neg hsw] at h; cases h
      · rw [if_neg hpc] at h; cases h

theorem findKw_trim_ne_nil (kw u : List Char) (hP : nlOnlyWS u) :
    ∀ s, s <:+ u → ∀ t, findKw kw s = some t → jsTrim t ≠ [] := by
  intro s
  induction s with
  | nil => intro _ t ht; simp [findKw] at ht
  | cons c rest ih =>
    intro hsuf t ht
    have hs : findKw kw (c :: rest) =
        match matchKwAt kw (c :: rest) with
        | some v => some v
        | none => findKw kw rest := rfl
    rw [hs] at ht
    cases hm : matchKwAt kw (c :: rest) with
    | some v =>
      rw [hm] at ht
      injection ht with hv
      obtain ⟨r, hr, hcap⟩ := matchKwAt_capAfter kw (c :: rest) v hm
      rw [← hv]
      exact capAfter_trim_ne_nil r u (hr.trans hsuf) hP v hcap
    | none =>
      rw [hm] at ht
      exact ih ((List.suffix_cons c rest).trans hsuf) t ht

theorem ensureMetadata_added_eq (src : List Char) :
    (ensureMetadata src).added =
      (!truthyOpt (parseMermaidMetadata src).title ||
        !truthyOpt (parseMermaidMetadata src).description) := rfl

theorem ensureMetadata_source_eq (src : List Char) :
    (ensureMetadata src).source =
      (if (!truthyOpt (parseMermaidMetadata src).title ||
            !truthyOpt (parseMermaidMetadata src).description) then
        src ++ (if endsWithNl src then [] else ['\n']) ++
          joinNl
            ((if !truthyOpt (parseMermaidMetadata src).title then [titleDefaultLine] else []) ++
              (if !truthyOpt (parseMermaidMetadata src).description then [descrDefaultLine]
                else [])) ++
          ['\n']
      else src) := rfl

theorem ensureMetadata_metadata_eq (src : List Char) :
    (ensureMetadata src).metadata = parseMermaidMetadata (ensureMetadata src).source := rfl

theorem matchKwAt_titleLine (rest : List Char) :
    (matchKwAt kwTitle (titleDefaultLine ++ rest)).isSome = true := rfl

theorem matchKwAt_descrLine (rest : List Char) :
    (matchKwAt kwDescr (descrDefaultLine ++ rest)).isSome = true := rfl

theorem isSome_of_truthy_map (o : Option (List Char)) (f : List Char → List Char)
    (h : truthyOpt (o.map f) = true) : o.isSome = true := by
  cases o with
  | none => simp [truthyOpt] at h
  | some t => rfl

theorem truthy_some_of_ne (t : List Char) (h : jsTrim t ≠ []) :
    truthyOpt (some (jsTrim t)) = true := by
  unfold truthyOpt
  cases ht : jsTrim t with
  | nil => cases h ht
  | cons a l => rfl

theorem ensureMetadata_source_of_not_added (src : List Char)
    (h : (ensureMetadata src).added = false) : (ensureMetadata src).source = src := by
  have hc : (!truthyOpt (parseMermaidMetadata src).title ||
      !truthyOpt (parseMermaidMetadata src).description) = false := by
    rw [← ensureMetadata_added_eq]; exact h
  rw [ensureMetadata_source_eq, if_neg (by rw [hc]; exact Bool.false_ne_true)]

theorem ensureMetadata_kw_isSome (src : List Char) :
    (findKw kwTitle (ensureMetadata src).source).isSome = true ∧
    (findKw kwDescr (ensureMetadata src).source).isSome = true := by
  have hkwT : kwTitle ≠ [] := by decide
  have hkwD : kwDescr ≠ [] := by decide
  rw [ensureMetadata_source_eq]
  cases hT : truthyOpt (parseMermaidMetadata src).title with
  | true =>
    cases hD : truthyOpt (parseMermaidMetadata src).description with
    | true =>
      simp only [hT, hD, Bool.not_true, Bool.or_self, Bool.false_eq_true, if_false]
      exact ⟨isSome_of_truthy_map _ jsTrim hT, isSome_of_truthy_map _ jsTrim hD⟩
    | false =>
      simp only [hT, hD, Bool.not_true, Bool.not_false, Bool.or_true, if_true, if_false,
        List.nil_append]
      constructor
      · have hSome : (findKw kwTitle src).isSome = true := isSome_of_truthy_map _ jsTrim hT
        rw [List.append_assoc, List.append_assoc]
        exact findKw_append_isSome kwTitle src _ hkwT hSome
      · have hre : (src ++ (if endsWithNl src then [] else ['\n']) ++
            joinNl ((if (false = true) then [titleDefaultLine] else []) ++ [descrDefaultLine])) ++
            ['\n'] =
            (src ++ (if endsWithNl src then [] else ['\n'])) ++ (descrDefaultLine ++ ['\n']) := by
          simp [joinNl, List.append_assoc]
        rw [hre]
        exact findKw_of_matchKwAt kwDescr _ _ (matchKwAt_descrLine ['\n'])
  | false =>
    cases hD : truthyOpt (parseMermaidMetadata src).description with
    | true =>
      simp only [hT, hD, Bool.not_true, Bool.not_false, Bool.true_or, if_true, if_false,
        List.append_nil]
      constructor
      · have hre : (src ++ (if endsWithNl src then [] else ['\n']) ++
            joinNl ([titleDefaultLine] ++ (if (false = true) then [descrDefaultLine] else []))) ++
            ['\n'] =
            (src ++ (if endsWithNl src then [] else ['\n'])) ++ (titleDefaultLine ++ ['\n']) := by
          simp [joinNl, List.append_assoc]
        rw [hre]
        exact findKw_of_matchKwAt kwTitle _ _ (matchKwAt_titleLine ['\n'])
      · have hSome : (findKw kwDescr src).isSome = true := isSome_of_truthy_map _ jsTrim hD
        rw [List.append_assoc, List.append_assoc]
        exact findKw_append_isSome kwDescr src _ hkwD hSome
    | false =>
      simp only [hT, hD, Bool.not_false, Bool.true_or, if_true]
      constructor
      · have hre : (src ++ (if endsWithNl src then [] else ['\n']) ++
            joinNl ([titleDefaultLine] ++ [descrDefaultLine])) ++ ['\n'] =
            (src ++ (if endsWithNl src then [] else ['\n'])) ++
              (titleDefaultLine ++ ('\n' :: (descrDefaultLine ++ ['\n']))) := by
          simp [joinNl, List.append_assoc]
        rw [hre]
        exact findKw_of_matchKwAt kwTitle _ _ (matchKwAt_titleLine _)
      · have hre : (src ++ (if endsWithNl src then [] else ['\n']) ++
            joinNl ([titleDefaultLine] ++ [descrDefaultLine])) ++ ['\n'] =
            ((src ++ (if endsWithNl src then [] else ['\n']) ++ titleDefaultLine) ++ ['\n']) ++
              (descrDefaultLine ++ ['\n']) := by
          simp [joinNl, List.append_assoc]
        rw [hre]
        exact findKw_of_matchKwAt kwDescr _ _ (matchKwAt_descrLine ['\n'])

theorem ensureMetadata_nlOnly (src : List Char) (hadd : (ensureMetadata src).added = true) :
    nlOnlyWS (ensureMetadata src).source := by
  rw [ensureMetadata_added_eq] at hadd
  rw [ensureMetadata_source_eq, if_pos hadd]
  cases hD : (!truthyOpt (parseMermaidMetadata src).description) with
  | true =>
    have hDdec : descrDefaultLine =
        "%%accDescr Auto-generated description for accessibility. Please customize".toList ++
          ['.'] := by decide
    cases hT2 : (!truthyOpt (parseMermaidMetadata src).title) with
    | true =>
      simp only [hT2, hD, if_true]
      have hre : (src ++ (if endsWithNl src then [] else ['\n']) ++
          joinNl ([titleDefaultLine] ++ [descrDefaultLine])) ++ ['\n'] =
          (src ++ (if endsWithNl src then [] else ['\n']) ++
            (titleDefaultLine ++ ('\n' ::
              "%%accDescr Auto-generated description for accessibility. Please customize".toList)))
            ++ ['.', '\n'] := by
        rw [hDdec]
        simp [joinNl, List.append_assoc]
      rw [hre]
      exact nlOnlyWS_of_ends _ '.' (by decide)
    | false =>
      simp only [hT2, hD, if_true, if_false, List.nil_append]
      have hre : (src ++ (if endsWithNl src then [] else ['\n']) ++
          joinNl ((if (false = true) then [titleDefaultLine] else []) ++ [descrDefaultLine])) ++
          ['\n'] =
          (src ++ (if endsWithNl src then [] else ['\n']) ++
            "%%accDescr Auto-generated description for accessibility. Please customize".toList)
            ++ ['.', '\n'] := by
        rw [hDdec]
        simp [joinNl, List.append_assoc]
      rw [hre]
      exact nlOnlyWS_of_ends _ '.' (by decide)
  | false =>
    have hT2 : (!truthyOpt (parseMermaidMetadata src).title) = true := by
      rw [hD] at hadd
      simpa using hadd
    have hTdec : titleDefaultLine = "%%accTitle Untitled Diagra".toList ++ ['m'] := by decide
    simp only [hT2, hD, if_true, if_false, List.append_nil]
    have hre : (src ++ (if endsWithNl src then [] else ['\n']) ++
        joinNl ([titleDefaultLine] ++ (if (false = true) then [descrDefaultLine] else []))) ++
        ['\n'] =
        (src ++ (if endsWithNl src then [] else ['\n']) ++ "%%accTitle Untitled Diagra".toList)
          ++ ['m', '\n'] := by
      rw [hTdec]
      simp [joinNl, List.append_assoc]
    rw [hre]
    exact nlOnlyWS_of_ends _ 'm' (by decide)

theorem ensureMetadata_truthy (src : List Char) :
    truthyOpt (parseMermaidMetadata (ensureMetadata src).source).title = true ∧
    truthyOpt (parseMermaidMetadata (ensureMetadata src).source).description = true := by
  obtain ⟨hTi, hDi⟩ := ensureMetadata_kw_isSome src
  obtain ⟨tT, htT⟩ := Option.isSome_iff_exists.1 hTi
  obtain ⟨tD, htD⟩ := Option.isSome_iff_exists.1 hDi
  cases hadd : (ensureMetadata src).added with
  | true =>
    have hP : nlOnlyWS (ensureMetadata src).source := ensureMetadata_nlOnly src hadd
    have h1 := findKw_trim_ne_nil kwTitle _ hP _ (List.suffix_refl _) tT htT
    have h2 := findKw_trim_ne_nil kwDescr _ hP _ (List.suffix_refl _) tD htD
    constructor
    · show truthyOpt ((findKw kwTitle (ensureMetadata src).source).map jsTrim) = true
      rw [htT]
      exact truthy_some_of_ne tT h1
    · show truthyOpt ((findKw kwDescr (ensureMetadata src).source).map jsTrim) = true
      rw [htD]
      exact truthy_some_of_ne tD h2
  | false =>
    have hsrc := ensureMetadata_source_of_not_added src hadd
    have hc : (!truthyOpt (parseMermaidMetadata src).title ||
        !truthyOpt (parseMermaidMetadata src).description) = false := by
      rw [← ensureMetadata_added_eq]; exact hadd
    rw [Bool.or_eq_false_iff, Bool.not_eq_false', Bool.not_eq_false'] at hc
    rw [hsrc]
    exact hc

/-- C8: annotation auto-insertion appends (only at the end, so the original
source is a prefix of the result) one default annotation line per missing
metadata field, returns metadata in which both fields are non-null, and
reports `added` exactly when the source was modified. -/
theorem ensureMetadata_appends_and_completes (src : List Char) :
    (∃ suf, (ensureMetadata src).source = src ++ suf) ∧
    ((ensureMetadata src).added = false → (ensureMetadata src).source = src) ∧
    (ensureMetadata src).metadata.title ≠ none ∧
    (ensureMetadata src).metadata.description ≠ none ∧
    ((ensureMetadata src).added = true ↔ (ensureMetadata src).source ≠ src) := by
  obtain ⟨hTi, hDi⟩ := ensureMetadata_kw_isSome src
  refine ⟨?_, ensureMetadata_source_of_not_added src, ?_, ?_, ?_⟩
  · cases hadd : (ensureMetadata src).added with
    | false =>
      exact ⟨[], by rw [ensureMetadata_source_of_not_added src hadd, List.append_nil]⟩
    | true =>
      have hcond : (!truthyOpt (parseMermaidMetadata src).title ||
          !truthyOpt (parseMermaidMetadata src).description) = true := by
        rw [← ensureMetadata_added_eq]; exact hadd
      refine ⟨(if endsWithNl src then [] else ['\n']) ++
        (joinNl ((if !truthyOpt (parseMermaidMetadata src).title then [titleDefaultLine] else []) ++
          (if !truthyOpt (parseMermaidMetadata src).description then [descrDefaultLine] else [])) ++
          ['\n']), ?_⟩
      rw [ensureMetadata_source_eq, if_pos hcond]
      simp [List.append_assoc]
  · obtain ⟨t, ht⟩ := Option.isSome_iff_exists.1 hTi
    rw [ensureMetadata_metadata_eq]
    show ((findKw kwTitle (ensureMetadata src).source).map jsTrim) ≠ none
    rw [ht]
    simp
  · obtain ⟨t, ht⟩ := Option.isSome_iff_exists.1 hDi
    rw [ensureMetadata_metadata_eq]
    show ((findKw kwDescr (ensureMetadata src).source).map jsTrim) ≠ none
    rw [ht]
    simp
  · constructor
    · intro hadd heq
      have hcond : (!truthyOpt (parseMermaidMetadata src).title ||
          !truthyOpt (parseMermaidMetadata src).description) = true := by
        rw [← ensureMetadata_added_eq]; exact hadd
      rw [ensureMetadata_source_eq, if_pos hcond] at heq
      have hlen := congrArg List.length heq
      simp [List.length_append] at hlen
    · intro hne
      cases hadd : (ensureMetadata src).added with
      | true => rfl
      | false => exact absurd (ensureMetadata_source_of_not_added src hadd) hne

/-- Witness for the C8 theorem at a concrete annotation-free source. -/
theorem ensureMetadata_appends_witness :
    (∃ suf, (ensureMetadata "flowchart TD".toList).source = "flowchart TD".toList ++ suf) ∧
    ((ensureMetadata "flowchart TD".toList).added = false →
      (ensureMetadata "flowchart TD".toList).source = "flowchart TD".toList) ∧
    (ensureMetadata "flowchart TD".toList).metadata.title ≠ none ∧
    (ensureMetadata "flowchart TD".toList).metadata.description ≠ none ∧
    ((ensureMetadata "flowchart TD".toList).added = true ↔
      (ensureMetadata "flowchart TD".toList).source ≠ "flowchart TD".toList) :=
  ensureMetadata_appends_and_completes "flowchart TD".toList

/-- C10: annotation auto-insertion is idempotent: running `ensureMetadata`
on its own output appends nothing, returns that source unchanged, and
reports `added = false`. -/
theorem ensureMetadata_idempotent (src : List Char) :
    (ensureMetadata (ensureMetadata src).source).source = (ensureMetadata src).source ∧
    (ensureMetadata (ensureMetadata src).source).added = false := by
  obtain ⟨h1, h2⟩ := ensureMetadata_truthy src
  have hadd : (ensureMetadata (ensureMetadata src).source).added = false := by
    rw [ensureMetadata_added_eq, h1, h2]
    rfl
  exact ⟨ensureMetadata_source_of_not_added _ hadd, hadd⟩

/-! ### Flowchart narrative (`generateFlowchartNarrative`, part_003 lines 2133-2213)

The three line regexes are embedded as deterministic scanners; greedy
character-class captures followed by literal delimiters never benefit from
backtracking into the class, so each regex behaves as maximal-munch with a
first-success scan over start positions (the node regex is anchored). -/

/-- C5 counterexample: for the scenario source
`flowchart TD\nA[Start]-->B[End]\n%%accTitle T\n%%accDescr D`, the shipped
parser finds one node and zero edges (on the combined line the anchored node
regex only captures `A[Start]`, and the edge regex requires the arrow to
follow an identifier directly, which `]` prevents), so the structural model
is not 2 nodes / 1 edge and the summary never reads "2 nodes, 1 connection". -/
theorem flowchart_scenario_claim_false :
    ¬ ((flowchartModel "flowchart TD\nA[Start]-->B[End]\n%%accTitle T\n%%accDescr D".toList).1.length = 2 ∧
      (flowchartModel "flowchart TD\nA[Start]-->B[End]\n%%accTitle T\n%%accDescr D".toList).2.length = 1 ∧
      containsSub "2 nodes, 1 connection".toList
        (generateFlowchartNarrative
          "flowchart TD\nA[Start]-->B[End]\n%%accTitle T\n%%accDescr D".toList) = true) := by
  decide

/-- C5 (amended): on the scenario source the classifier returns flowchart,
the structural parser produces exactly 1 node and 0 edges, the narrative
contains "Start at: Start" (as `Start at: <strong>Start</strong>`) and never
mentions "End", and the summary line reports "1 node, 0 connections". -/
theorem flowchart_scenario_amended :
    detectDiagramType "flowchart TD\nA[Start]-->B[End]\n%%accTitle T\n%%accDescr D".toList =
      "flowchart" ∧
    (flowchartModel "flowchart TD\nA[Start]-->B[End]\n%%accTitle T\n%%accDescr D".toList).1.length
      = 1 ∧
    (flowchartModel "flowchart TD\nA[Start]-->B[End]\n%%accTitle T\n%%accDescr D".toList).2.length
      = 0 ∧
    containsSub "Start at: <strong>Start</strong>".toList
      (generateFlowchartNarrative
        "flowchart TD\nA[Start]-->B[End]\n%%accTitle T\n%%accDescr D".toList) = true ∧
    containsSub "1 node, 0 connections".toList
      (generateFlowchartNarrative
        "flowchart TD\nA[Start]-->B[End]\n%%accTitle T\n%%accDescr D".toList) = true ∧
    containsSub "End".toList
      (generateFlowchartNarrative
        "flowchart TD\nA[Start]-->B[End]\n%%accTitle T\n%%accDescr D".toList) = false := by
  decide

/-! ### Pie narrative (`generatePieNarrative`, part_003 lines 2218-2253)

Data lines match `/["']?([^"':]+)["']?\s*:\s*(\d+(?:\.\d+)?)/` (first match
per trimmed line).  Since the label class excludes both quotes and the
colon, the greedy label capture is maximal-munch and backtracking into it
never succeeds, so the regex reduces to the deterministic scanner below.
JS numbers are embedded as exact rationals: every matched literal is a
decimal, and the only value-dependent arithmetic (value/total percentages,
one-decimal rounding) is modelled over `ℚ`. -/

/-- C6 counterexample: the source `pie\n"A": 0` yields the non-empty segment
set `[("A", 0)]` with total 0; the divide-by-zero guard reports 0%, so the
reported percentages sum to 0, not to 100 within the per-segment rounding
tolerance. -/
theorem pie_percentages_claim_false :
    pieDataOf "pie\n\"A\": 0".toList ≠ [] ∧
    ¬ (|(pieReported "pie\n\"A\": 0".toList).sum - 100| ≤
        ((pieDataOf "pie\n\"A\": 0".toList).length : ℚ) * (1 / 10)) := by
  constructor
  · decide
  · intro h
    have hd : pieDataOf "pie\n\"A\": 0".toList = [("A".toList, (0 : ℚ))] := by decide
    have htot : pieTotal "pie\n\"A\": 0".toList = 0 := by
      unfold pieTotal
      rw [hd]
      simp
    have h1 : pieReported "pie\n\"A\": 0".toList = [0] := by
      unfold pieReported pieSorted
      rw [hd, List.mergeSort_singleton, htot]
      norm_num
    have h2 : (pieDataOf "pie\n\"A\": 0".toList).length = 1 := by decide
    rw [h1, h2] at h
    simp only [List.sum_cons, List.sum_nil, add_zero, zero_sub, abs_neg] at h
    rw [abs_of_nonneg (by norm_num : (0 : ℚ) ≤ 100)] at h
    norm_num at h

theorem round1_close (q : ℚ) : |round1 q - q| ≤ 1 / 20 := by
  unfold round1
  rw [abs_le]
  have h1 : ((⌊q * 10 + 1 / 2⌋ : ℤ) : ℚ) ≤ q * 10 + 1 / 2 := Int.floor_le _
  have h2 : q * 10 + 1 / 2 < ((⌊q * 10 + 1 / 2⌋ : ℤ) : ℚ) + 1 := Int.lt_floor_add_one _
  constructor
  · linarith
  · linarith

theorem sum_div_mul (l : List (List Char × ℚ)) (T : ℚ) :
    (l.map (fun s => s.2 / T * 100)).sum = ((l.map Prod.snd).sum) / T * 100 := by
  induction l with
  | nil => simp
  | cons a rest ih =>
    simp only [List.map_cons, List.sum_cons, ih, add_div, add_mul]

theorem sum_round_close (T : ℚ) (l : List (List Char × ℚ)) :
    |(l.map (fun s => round1 (s.2 / T * 100))).sum -
        (l.map (fun s => s.2 / T * 100)).sum| ≤ (l.length : ℚ) * (1 / 20) := by
  induction l with
  | nil => simp
  | cons a rest ih =>
    simp only [List.map_cons, List.sum_cons, List.length_cons]
    have key : (round1 (a.2 / T * 100) + (rest.map (fun s => round1 (s.2 / T * 100))).sum) -
        ((a.2 / T * 100) + (rest.map (fun s => s.2 / T * 100)).sum) =
        (round1 (a.2 / T * 100) - a.2 / T * 100) +
          ((rest.map (fun s => round1 (s.2 / T * 100))).sum -
            (rest.map (fun s => s.2 / T * 100)).sum) := by ring
    rw [key]
    refine le_trans (abs_add _ _) ?_
    have h1 := round1_close (a.2 / T * 100)
    push_cast
    linarith

/-- C6 (amended): for every pie source whose data lines yield a non-empty
segment set with positive total, the narrated (descending-value sorted)
percentages, each rounded to one decimal place, sum to 100 within the
per-segment rounding tolerance of 0.1; when the total is 0 (including the
zero-matching-lines case, where the total is 0 by construction) the guard
reports every percentage as 0 with no division. -/
theorem pie_percentages_amended (src : List Char)
    (h1 : pieDataOf src ≠ []) (h2 : 0 < pieTotal src) :
    |(pieReported src).sum - 100| ≤ ((pieDataOf src).length : ℚ) * (1 / 10) ∧
    List.Pairwise (fun a b : List Char × ℚ => b.2 ≤ a.2) (pieSorted src) ∧
    (∀ src2 : List Char, pieDataOf src2 = [] → pieTotal src2 = 0) ∧
    (∀ src2 : List Char, pieTotal src2 = 0 → ∀ x ∈ pieReported src2, x = 0) := by
  refine ⟨?_, ?_, ?_, ?_⟩
  · have hfun : (fun s : List Char × ℚ =>
        if 0 < pieTotal src then round1 (s.2 / pieTotal src * 100) else 0) =
        (fun s : List Char × ℚ => round1 (s.2 / pieTotal src * 100)) :=
      funext fun s => if_pos h2
    have hrep : pieReported src =
        (pieSorted src).map (fun s => round1 (s.2 / pieTotal src * 100)) := by
      unfold pieReported
      rw [hfun]
    have hperm := List.mergeSort_perm (pieDataOf src) (fun a b => decide (b.2 ≤ a.2))
    have hsnd : ((pieSorted src).map Prod.snd).sum = pieTotal src :=
      (hperm.map Prod.snd).sum_eq
    have hsum2 : ((pieSorted src).map (fun s => s.2 / pieTotal src * 100)).sum = 100 := by
      rw [sum_div_mul, hsnd, div_self (ne_of_gt h2), one_mul]
    have hlen2 : (pieSorted src).length = (pieDataOf src).length := hperm.length_eq
    have hlen : ((pieSorted src).length : ℚ) = ((pieDataOf src).length : ℚ) := by
      rw [hlen2]
    calc |(pieReported src).sum - 100|
        = |((pieSorted src).map (fun s => round1 (s.2 / pieTotal src * 100))).sum -
            ((pieSorted src).map (fun s => s.2 / pieTotal src * 100)).sum| := by
          rw [hrep, hsum2]
      _ ≤ ((pieSorted src).length : ℚ) * (1 / 20) := sum_round_close _ _
      _ = ((pieDataOf src).length : ℚ) * (1 / 20) := by rw [hlen]
      _ ≤ ((pieDataOf src).length : ℚ) * (1 / 10) := by
          have := (Nat.cast_nonneg (pieDataOf src).length :
            (0 : ℚ) ≤ ((pieDataOf src).length : ℚ))
          nlinarith
  · have hp := @List.sorted_mergeSort (List Char × ℚ)
      (fun a b : List Char × ℚ => decide (b.2 ≤ a.2))
      (fun a b c hab hbc => by
        simp only [decide_eq_true_eq] at *
        exact le_trans hbc hab)
      (fun a b => by
        simp only [Bool.or_eq_true, decide_eq_true_eq]
        exact le_total b.2 a.2)
      (pieDataOf src)
    exact hp.imp (fun h => by simpa using h)
  · intro src2 hnil
    unfold pieTotal
    rw [hnil]
    simp
  · intro src2 h0 x hx
    unfold pieReported at hx
    rw [List.mem_map] at hx
    obtain ⟨s, _, rfl⟩ := hx
    rw [h0]
    simp

/-- Witness for the amended C6 theorem at `pie\n"A": 2\n"B": 6`. -/
theorem pie_percentages_amended_witness :
    |(pieReported "pie\n\"A\": 2\n\"B\": 6".toList).sum - 100| ≤
      (((pieDataOf "pie\n\"A\": 2\n\"B\": 6".toList).length : ℚ)) * (1 / 10) ∧
    List.Pairwise (fun a b : List Char × ℚ => b.2 ≤ a.2)
      (pieSorted "pie\n\"A\": 2\n\"B\": 6".toList) ∧
    (∀ src2 : List Char, pieDataOf src2 = [] → pieTotal src2 = 0) ∧
    (∀ src2 : List Char, pieTotal src2 = 0 → ∀ x ∈ pieReported src2, x = 0) :=
  pie_percentages_amended "pie\n\"A\": 2\n\"B\": 6".toList (by decide)
    (by
      have hd : pieDataOf "pie\n\"A\": 2\n\"B\": 6".toList =
          [("A".toList, (2 : ℚ)), ("B".toList, (6 : ℚ))] := by decide
      unfold pieTotal
      rw [hd]
      norm_num)

/-! ### Vector-markup (SVG) accessibility transformer

`applyAccessibilityTransformations` (part_003 lines 1855-1903) and
`applyFlowchartSemantics` (lines 1954-2039) mutate the DOM tree produced by
`DOMParser.parseFromString(_, 'image/svg+xml')`.  The tree is embedded as
`XNode`; the parser/serializer boundary is treated as the identity on this
tree.  For `image/svg+xml` the DOM parser never throws: a malformed input
yields a document containing a `parsererror` element, which is what
`parseSvgSafely` (lines 3445-3455) inspects and the transformer does not.
`generateUniqueId` (lines 1847-1849) draws on `Date.now()` and
`Math.random()`; the two generated identifiers are passed as parameters.
The snapshot `querySelectorAll` loop over node groups is embedded as a
recursive traversal that transforms inner groups after outer ones; on
documents without nested node groups (the only shape the rendering engine
emits, and the hypothesis under which the flowchart theorems are stated)
the two visit orders perform identical independent mutations. -/

theorem truthy_of_ne_nil (t : List Char) (h : t ≠ []) : truthyOpt (some t) = true := by
  unfold truthyOpt
  cases hc : t with
  | nil => cases h hc
  | cons x xs => rfl

theorem locateFirst_cons_pos (p : XNode → Bool) (n : XNode) (rest : List XNode)
    (h : p n = true) : locateFirst p (n :: rest) = some (Sum.inl 0) := by
  unfold locateFirst
  rw [if_pos h]

theorem descInsertPos_cons_title (T : XNode) (rest : List XNode)
    (hT : isElemNamed "title" T = true) :
    descInsertPos (T :: rest) = some (if 1 < rest.length + 1 then 1 else 0) := by
  unfold descInsertPos
  rw [locateFirst_cons_pos _ _ _ hT]
  rfl

theorem a11yWithDesc_isSome_of_title_head (m : SvgMetadata) (did : String) (T : XNode)
    (rest : List XNode) (hT : isElemNamed "title" T = true) :
    (a11yWithDesc m did (T :: rest)).isSome = true := by
  unfold a11yWithDesc
  by_cases hD : truthyOpt m.description = true
  · rw [if_pos hD, descInsertPos_cons_title T rest hT]
    rfl
  · rw [if_neg hD]
    rfl

theorem applyA11y_elem_isSome (tg : String) (a : List (String × String)) (c : List XNode)
    (m : SvgMetadata) (tid did : String) (hT : truthyOpt m.title = true) :
    (applyAccessibilityTransformations (XNode.elem tg a c) m tid did).isSome = true := by
  show (match a11yWithDesc m did (a11yWithTitle m tid c) with
    | none => none
    | some c4 =>
      match applyFlowchartSemantics (XNode.elem tg (a11yRootAttrs m a tid did) c4) with
      | .elem t2 a3 c5 =>
        some (XNode.elem t2 (setAttrL a3 "xmlns" "http://www.w3.org/2000/svg") c5)
      | .text s => some (XNode.text s)).isSome = true
  have hwt : a11yWithTitle m tid c =
      XNode.elem "title" [("id", tid)] [.text (m.title.getD [])] :: a11yStrippedChildren c := by
    unfold a11yWithTitle
    rw [if_pos hT]
  rw [hwt]
  have hsome := a11yWithDesc_isSome_of_title_head m did
    (XNode.elem "title" [("id", tid)] [.text (m.title.getD [])]) (a11yStrippedChildren c) (by rfl)
  obtain ⟨c4, hc4⟩ := Option.isSome_iff_exists.1 hsome
  rw [hc4]
  rfl

/-- C7 counterexample: a failed `image/svg+xml` parse yields a document whose
root is a `parsererror` element (the parser never throws); on that document
the transformer returns a result as if the parse had succeeded, instead of
surfacing an error to its caller. -/
theorem svg_parse_failure_not_surfaced :
    (parseSvgSafely (XNode.elem "parsererror" [] [.text "error on line 1".toList])).1 = false ∧
    (applyAccessibilityTransformations
        (XNode.elem "parsererror" [] [.text "error on line 1".toList])
        ⟨some "T".toList, some "D".toList⟩ "t-1" "d-1").isSome = true := by
  exact ⟨rfl, rfl⟩

/-- C7 (amended): the transformer performs no markup-parse-failure check at
all: for every parse-result document (an element root; with JS-truthy,
i.e. non-empty, title metadata) it returns a transformed document, even when
the parse failed and the document is a parser-error document.  Parse
failures are only reported by the separate `parseSvgSafely` validator (used
by the SVG-editing path), whose `ok` flag is false exactly when a
`parsererror` element is present. -/
theorem svg_transformer_no_parse_check (d : XNode) (t dsc : List Char) (tid did : String)
    (ht : t ≠ []) (hd : d.isElemNode = true) :
    (applyAccessibilityTransformations d ⟨some t, some dsc⟩ tid did).isSome = true ∧
    ((parseSvgSafely d).1 = true ↔ docQueryParseError d = none) := by
  constructor
  · cases d with
    | text s => cases hd
    | elem tg a c => exact applyA11y_elem_isSome tg a c _ tid did (truthy_of_ne_nil t ht)
  · unfold parseSvgSafely
    cases hq : docQueryParseError d with
    | some e => simp
    | none => simp

/-- Witness for the amended C7 theorem at a concrete parser-error document. -/
theorem svg_transformer_no_parse_check_witness :
    (applyAccessibilityTransformations (XNode.elem "parsererror" [] [.text "boom".toList])
        ⟨some "T".toList, some "D".toList⟩ "t-2" "d-2").isSome = true ∧
    ((parseSvgSafely (XNode.elem "parsererror" [] [.text "boom".toList])).1 = true ↔
      docQueryParseError (XNode.elem "parsererror" [] [.text "boom".toList]) = none) :=
  svg_transformer_no_parse_check (XNode.elem "parsererror" [] [.text "boom".toList])
    "T".toList "D".toList "t-2" "d-2" (by decide) (by rfl)

theorem isElemNamed_children_irrel (nm t : String) (a : List (String × String))
    (c c' : List XNode) :
    isElemNamed nm (XNode.elem t a c) = isElemNamed nm (XNode.elem t a c') := rfl

theorem countP_le_countDescP (p : XNode → Bool) : ∀ l : List XNode, l.countP p ≤ countDescP p l
  | [] => by simp [countDescP]
  | n :: rest => by
    have ih := countP_le_countDescP p rest
    cases n with
    | text s =>
      rw [List.countP_cons, countDescP]
      omega
    | elem t a c =>
      rw [List.countP_cons, countDescP]
      omega

theorem removeFirstL_of_count_zero (p : XNode → Bool) :
    ∀ l, countDescP p l = 0 → removeFirstL p l = (l, false)
  | [], _ => by rw [removeFirstL]
  | n :: rest, h => by
    cases n with
    | text s =>
      rw [countDescP] at h
      have hp : p (XNode.text s) = false := by
        cases hp : p (XNode.text s)
        · rfl
        · rw [hp] at h; simp at h
      have hr := removeFirstL_of_count_zero p rest (by omega)
      rw [removeFirstL, if_neg (by rw [hp]; exact Bool.false_ne_true), hr]
    | elem t a c =>
      rw [countDescP] at h
      have hp : p (XNode.elem t a c) = false := by
        cases hp : p (XNode.elem t a c)
        · rfl
        · rw [hp] at h; simp at h
      have hc := removeFirstL_of_count_zero p c (by omega)
      have hr := removeFirstL_of_count_zero p rest (by omega)
      rw [removeFirstL, if_neg (by rw [hp]; exact Bool.false_ne_true), hc, hr]
      rfl

theorem removeFirstL_flag_of_count_pos (p : XNode → Bool) :
    ∀ l, 1 ≤ countDescP p l → (removeFirstL p l).2 = true
  | [], h => by simp [countDescP] at h
  | n :: rest, h => by
    cases n with
    | text s =>
      rw [countDescP] at h
      rw [removeFirstL]
      cases hp : p (XNode.text s) with
      | true => simp
      | false =>
        rw [hp] at h
        simp only [Bool.false_eq_true, if_false] at h ⊢
        exact removeFirstL_flag_of_count_pos p rest (by omega)
    | elem t a c =>
      rw [countDescP] at h
      rw [removeFirstL]
      cases hp : p (XNode.elem t a c) with
      | true => simp
      | false =>
        rw [hp] at h
        simp only [Bool.false_eq_true, if_false] at h ⊢
        cases hfc : (removeFirstL p c).2 with
        | true => simp
        | false =>
          simp only [Bool.false_eq_true, if_false]
          have hc0 : countDescP p c = 0 := by
            by_contra hne
            have := removeFirstL_flag_of_count_pos p c (by omega)
            rw [this] at hfc
            cases hfc
          exact removeFirstL_flag_of_count_pos p rest (by omega)

theorem findAttr_map_set_found (k v : String) :
    ∀ l : List (String × String), l.any (fun q => q.1 = k) = true →
      (l.map (fun q => if q.1 = k then (k, v) else q)).find? (fun q => q.1 = k) = some (k, v)
  | [], h => by simp at h
  | q :: t, h => by
    rw [List.map_cons]
    by_cases hq : q.1 = k
    · rw [if_pos hq, List.find?_cons_of_pos _ (by simp)]
    · rw [if_neg hq, List.find?_cons_of_neg _ (by simp [hq])]
      refine findAttr_map_set_found k v t ?_
      simp only [List.any_cons, Bool.or_eq_true, decide_eq_true_eq] at h
      rcases h with h1 | h2
      · exact absurd h1 hq
      · exact h2

theorem findAttr_map_set_other (k v k' : String) (hkk : k' ≠ k) :
    ∀ l : List (String × String),
      (l.map (fun q => if q.1 = k then (k, v) else q)).find? (fun q => q.1 = k')
        = l.find? (fun q => q.1 = k')
  | [] => by simp
  | q :: t => by
    rw [List.map_cons]
    by_cases hq : q.1 = k
    · rw [if_pos hq]
      rw [List.find?_cons_of_neg _ (by simp only [decide_eq_true_eq]; exact fun h => hkk h.symm)]
      rw [List.find?_cons_of_neg _
        (by simp only [decide_eq_true_eq, hq]; exact fun h => hkk h.symm)]
      exact findAttr_map_set_other k v k' hkk t
    · rw [if_neg hq]
      by_cases hq' : q.1 = k'
      · rw [List.find?_cons_of_pos _ (by simp [hq']), List.find?_cons_of_pos _ (by simp [hq'])]
      · rw [List.find?_cons_of_neg _ (by simp [hq']), List.find?_cons_of_neg _ (by simp [hq'])]
        exact findAttr_map_set_other k v k' hkk t

theorem countAttr_map_set (k v k' : String) :
    ∀ l : List (String × String),
      (l.map (fun q => if q.1 = k then (k, v) else q)).countP (fun q => q.1 = k')
        = l.countP (fun q => q.1 = k')
  | [] => by simp
  | q :: t => by
    rw [List.map_cons]
    by_cases hq : q.1 = k
    · rw [if_pos hq, List.countP_cons, List.countP_cons, countAttr_map_set k v k' t, hq]
    · rw [if_neg hq, List.countP_cons, List.countP_cons, countAttr_map_set k v k' t]

theorem getAttr_setAttr_same (l : List (String × String)) (k v : String) :
    getAttrL (setAttrL l k v) k = some v := by
  unfold setAttrL
  by_cases h : l.any (fun q => q.1 = k) = true
  · rw [if_pos h]
    unfold getAttrL
    rw [findAttr_map_set_found k v l h]
  · rw [if_neg h]
    unfold getAttrL
    rw [List.find?_append]
    have h1 : l.find? (fun q => q.1 = k) = none := by
      rw [List.find?_eq_none]
      intro x hx hpx
      exact h (List.any_eq_true.2 ⟨x, hx, hpx⟩)
    rw [h1, List.find?_cons_of_pos _ (by simp)]
    rfl

theorem getAttr_setAttr_other (l : List (String × String)) (k v k' : String) (hkk : k' ≠ k) :
    getAttrL (setAttrL l k v) k' = getAttrL l k' := by
  unfold setAttrL
  by_cases h : l.any (fun q => q.1 = k) = true
  · rw [if_pos h]
    unfold getAttrL
    rw [findAttr_map_set_other k v k' hkk l]
  · rw [if_neg h]
    unfold getAttrL
    rw [List.find?_append]
    have h2 : List.find? (fun q => q.1 = k') [(k, v)] = none := by
      rw [List.find?_eq_none]
      intro x hx
      simp only [List.mem_singleton] at hx
      subst hx
      simp only [decide_eq_true_eq]
      exact fun hh => hkk hh.symm
    rw [h2, Option.or_none]

theorem countP_setAttr_same (l : List (String × String)) (k v : String)
    (h1 : l.countP (fun q => q.1 = k) ≤ 1) :
    (setAttrL l k v).countP (fun q => q.1 = k) = 1 := by
  unfold setAttrL
  by_cases h : l.any (fun q => q.1 = k) = true
  · rw [if_pos h, countAttr_map_set k v k l]
    have h2 : 0 < l.countP (fun q => q.1 = k) := by
      rcases List.any_eq_true.1 h with ⟨x, hx, hpx⟩
      exact List.countP_pos_iff.2 ⟨x, hx, hpx⟩
    omega
  · rw [if_neg h, List.countP_append]
    have h2 : l.countP (fun q => q.1 = k) = 0 := by
      rw [List.countP_eq_zero]
      intro x hx hpx
      exact h (List.any_eq_true.2 ⟨x, hx, hpx⟩)
    rw [h2]
    simp

theorem countP_setAttr_other (l : List (String × String)) (k v k' : String) (hkk : k' ≠ k) :
    (setAttrL l k v).countP (fun q => q.1 = k') = l.countP (fun q => q.1 = k') := by
  unfold setAttrL
  by_cases h : l.any (fun q => q.1 = k) = true
  · rw [if_pos h, countAttr_map_set k v k' l]
  · rw [if_neg h, List.countP_append]
    have h2 : List.countP (fun q => q.1 = k') [(k, v)] = 0 := by
      rw [List.countP_eq_zero]
      intro x hx
      simp only [List.mem_singleton] at hx
      subst hx
      simp only [decide_eq_true_eq]
      exact fun hh => hkk hh.symm
    rw [h2]
    omega

theorem removeFirstL_nil (p : XNode → Bool) : removeFirstL p [] = ([], false) := by
  rw [removeFirstL]

theorem removeFirstL_cons_text (p : XNode → Bool) (s : List Char) (rest : List XNode) :
    removeFirstL p (XNode.text s :: rest) =
      if p (XNode.text s) then (rest, true)
      else (XNode.text s :: (removeFirstL p rest).1, (removeFirstL p rest).2) := by
  rw [removeFirstL]

theorem removeFirstL_cons_elem (p : XNode → Bool) (t : String) (a : List (String × String))
    (c : List XNode) (rest : List XNode) :
    removeFirstL p (XNode.elem t a c :: rest) =
      if p (XNode.elem t a c) then (rest, true)
      else
        (if (removeFirstL p c).2 then (XNode.elem t a (removeFirstL p c).1 :: rest, true)
         else (XNode.elem t a c :: (removeFirstL p rest).1, (removeFirstL p rest).2)) := by
  rw [removeFirstL]

theorem countDescP_nil (p : XNode → Bool) : countDescP p [] = 0 := by
  rw [countDescP]

theorem countDescP_cons_text (p : XNode → Bool) (s : List Char) (rest : List XNode) :
    countDescP p (XNode.text s :: rest) =
      (if p (XNode.text s) then 1 else 0) + countDescP p rest := by
  rw [countDescP]

theorem countDescP_cons_elem (p : XNode → Bool) (t : String) (a : List (String × String))
    (c : List XNode) (rest : List XNode) :
    countDescP p (XNode.elem t a c :: rest) =
      ((if p (XNode.elem t a c) then 1 else 0) + countDescP p c) + countDescP p rest := by
  rw [countDescP]

theorem removeFirstL_cons_of_pos (p : XNode → Bool) (n : XNode) (rest : List XNode)
    (h : p n = true) : removeFirstL p (n :: rest) = (rest, true) := by
  cases n with
  | text s => rw [removeFirstL_cons_text, if_pos h]
  | elem t a c => rw [removeFirstL_cons_elem, if_pos h]

theorem countDescP_removeFirstL_self (nm : String) :
    ∀ l, countDescP (isElemNamed nm) l ≤ 1 →
      countDescP (isElemNamed nm) (removeFirstL (isElemNamed nm) l).1 = 0
  | [], _ => by
    rw [removeFirstL_nil]
    exact countDescP_nil _
  | n :: rest, h => by
    cases n with
    | text s =>
      rw [countDescP_cons_text] at h
      rw [removeFirstL_cons_text]
      have hp : isElemNamed nm (XNode.text s) = false := rfl
      rw [hp] at h ⊢
      rw [if_neg Bool.false_ne_true]
      simp only [Bool.false_eq_true, if_false, Nat.zero_add] at h
      show countDescP (isElemNamed nm)
        (XNode.text s :: (removeFirstL (isElemNamed nm) rest).1) = 0
      rw [countDescP_cons_text, hp]
      simp only [Bool.false_eq_true, if_false, Nat.zero_add]
      exact countDescP_removeFirstL_self nm rest h
    | elem t a c =>
      rw [countDescP_cons_elem] at h
      rw [removeFirstL_cons_elem]
      cases hp : isElemNamed nm (XNode.elem t a c) with
      | true =>
        rw [hp] at h
        rw [if_pos rfl]
        simp only [if_true] at h
        show countDescP (isElemNamed nm) rest = 0
        omega
      | false =>
        rw [hp] at h
        rw [if_neg Bool.false_ne_true]
        simp only [Bool.false_eq_true, if_false, Nat.zero_add] at h
        cases hfc : (removeFirstL (isElemNamed nm) c).2 with
        | true =>
          rw [if_pos rfl]
          show countDescP (isElemNamed nm)
            (XNode.elem t a (removeFirstL (isElemNamed nm) c).1 :: rest) = 0
          rw [countDescP_cons_elem]
          have hh : isElemNamed nm
              (XNode.elem t a (removeFirstL (isElemNamed nm) c).1) = false := hp
          rw [hh]
          simp only [Bool.false_eq_true, if_false, Nat.zero_add]
          have hcz : countDescP (isElemNamed nm) (removeFirstL (isElemNamed nm) c).1 = 0 :=
            countDescP_removeFirstL_self nm c (by omega)
          have hc1 : countDescP (isElemNamed nm) c ≠ 0 := by
            intro h0
            rw [removeFirstL_of_count_zero _ c h0] at hfc
            cases hfc
          omega
        | false =>
          rw [if_neg Bool.false_ne_true]
          show countDescP (isElemNamed nm)
            (XNode.elem t a c :: (removeFirstL (isElemNamed nm) rest).1) = 0
          rw [countDescP_cons_elem, hp]
          simp only [Bool.false_eq_true, if_false, Nat.zero_add]
          have hcz : countDescP (isElemNamed nm) c = 0 := by
            by_contra h0
            have := removeFirstL_flag_of_count_pos (isElemNamed nm) c (by omega)
            rw [this] at hfc
            cases hfc
          have := countDescP_removeFirstL_self nm rest (by omega)
          omega

theorem countDescP_removeFirstL_le (nm : String) (p : XNode → Bool) :
    ∀ l, countDescP (isElemNamed nm) (removeFirstL p l).1 ≤ countDescP (isElemNamed nm) l
  | [] => by rw [removeFirstL_nil]
  | n :: rest => by
    cases n with
    | text s =>
      rw [removeFirstL_cons_text]
      cases hp : p (XNode.text s) with
      | true =>
        rw [if_pos rfl]
        show countDescP (isElemNamed nm) rest ≤ _
        rw [countDescP_cons_text]
        omega
      | false =>
        rw [if_neg Bool.false_ne_true]
        show countDescP (isElemNamed nm)
          (XNode.text s :: (removeFirstL p rest).1) ≤ _
        rw [countDescP_cons_text, countDescP_cons_text]
        have := countDescP_removeFirstL_le nm p rest
        omega
    | elem t a c =>
      rw [removeFirstL_cons_elem]
      cases hp : p (XNode.elem t a c) with
      | true =>
        rw [if_pos rfl]
        show countDescP (isElemNamed nm) rest ≤ _
        rw [countDescP_cons_elem]
        omega
      | false =>
        rw [if_neg Bool.false_ne_true]
        cases hfc : (removeFirstL p c).2 with
        | true =>
          rw [if_pos rfl]
          show countDescP (isElemNamed nm)
            (XNode.elem t a (removeFirstL p c).1 :: rest) ≤ _
          rw [countDescP_cons_elem, countDescP_cons_elem]
          have hh : isElemNamed nm (XNode.elem t a (removeFirstL p c).1)
              = isElemNamed nm (XNode.elem t a c) := rfl
          rw [hh]
          have := countDescP_removeFirstL_le nm p c
          omega
        | false =>
          rw [if_neg Bool.false_ne_true]
          show countDescP (isElemNamed nm)
            (XNode.elem t a c :: (removeFirstL p rest).1) ≤ _
          rw [countDescP_cons_elem, countDescP_cons_elem]
          have := countDescP_removeFirstL_le nm p rest
          omega

theorem a11yStrippedChildren_counts (c : List XNode)
    (hT : countDescP (isElemNamed "title") c ≤ 1)
    (hD : countDescP (isElemNamed "desc") c ≤ 1) :
    (a11yStrippedChildren c).countP (isElemNamed "title") = 0 ∧
      (a11yStrippedChildren c).countP (isElemNamed "desc") = 0 := by
  unfold a11yStrippedChildren
  have h1 : countDescP (isElemNamed "title")
      (removeFirstL (isElemNamed "title") c).1 = 0 :=
    countDescP_removeFirstL_self "title" c hT
  have h2 : countDescP (isElemNamed "desc")
      (removeFirstL (isElemNamed "title") c).1 ≤ 1 :=
    le_trans (countDescP_removeFirstL_le "desc" (isElemNamed "title") c) hD
  have h3 : countDescP (isElemNamed "desc")
      (removeFirstL (isElemNamed "desc") (removeFirstL (isElemNamed "title") c).1).1 = 0 :=
    countDescP_removeFirstL_self "desc" _ h2
  have h4 : countDescP (isElemNamed "title")
      (removeFirstL (isElemNamed "desc") (removeFirstL (isElemNamed "title") c).1).1 = 0 :=
    Nat.le_zero.1 (le_trans
      (countDescP_removeFirstL_le "title" (isElemNamed "desc") _) (le_of_eq h1))
  constructor
  · exact Nat.le_zero.1 (le_trans (countP_le_countDescP _ _) (le_of_eq h4))
  · exact Nat.le_zero.1 (le_trans (countP_le_countDescP _ _) (le_of_eq h3))

theorem transformGroupsL_nil : transformGroupsL [] = [] := by
  rw [transformGroupsL]

theorem transformGroupsL_cons_text (s : List Char) (rest : List XNode) :
    transformGroupsL (XNode.text s :: rest) = XNode.text s :: transformGroupsL rest := by
  rw [transformGroupsL]

theorem transformGroupsL_cons_elem (t : String) (a : List (String × String)) (c : List XNode)
    (rest : List XNode) :
    transformGroupsL (XNode.elem t a c :: rest) =
      (if t = "g" && hasClass a "node" then transformNodeGroupElem t a (transformGroupsL c)
       else XNode.elem t a (transformGroupsL c)) :: transformGroupsL rest := by
  rw [transformGroupsL]

theorem hideMatching_nil (p : XNode → Bool) : hideMatching p [] = [] := by
  rw [hideMatching]

theorem hideMatching_cons_text (p : XNode → Bool) (s : List Char) (rest : List XNode) :
    hideMatching p (XNode.text s :: rest) = XNode.text s :: hideMatching p rest := by
  rw [hideMatching]

theorem hideMatching_cons_elem (p : XNode → Bool) (t : String) (a : List (String × String))
    (c : List XNode) (rest : List XNode) :
    hideMatching p (XNode.elem t a c :: rest) =
      XNode.elem t (if p (.elem t a c) then setAttrL a "aria-hidden" "true" else a)
        (hideMatching p c) :: hideMatching p rest := by
  rw [hideMatching]

theorem hideMarkersL_nil (b : Bool) : hideMarkersL b [] = [] := by
  rw [hideMarkersL]

theorem hideMarkersL_cons_text (b : Bool) (s : List Char) (rest : List XNode) :
    hideMarkersL b (XNode.text s :: rest) = XNode.text s :: hideMarkersL b rest := by
  rw [hideMarkersL]

theorem hideMarkersL_cons_elem (b : Bool) (t : String) (a : List (String × String))
    (c : List XNode) (rest : List XNode) :
    hideMarkersL b (XNode.elem t a c :: rest) =
      XNode.elem t (if b && t = "marker" then setAttrL a "aria-hidden" "true" else a)
        (hideMarkersL (b || t = "defs") c) :: hideMarkersL b rest := by
  rw [hideMarkersL]

theorem transformNodeGroup_tag (nm t : String) (a : List (String × String)) (c : List XNode) :
    isElemNamed nm (transformNodeGroupElem t a c) = isElemNamed nm (XNode.elem t a c) := rfl

theorem transformGroupsL_countP (nm : String) :
    ∀ l : List XNode, (transformGroupsL l).countP (isElemNamed nm) = l.countP (isElemNamed nm)
  | [] => by rw [transformGroupsL_nil]
  | .text s :: rest => by
    rw [transformGroupsL_cons_text, List.countP_cons, List.countP_cons,
      transformGroupsL_countP nm rest]
  | .elem t a c :: rest => by
    rw [transformGroupsL_cons_elem, List.countP_cons, List.countP_cons,
      transformGroupsL_countP nm rest]
    have hh : isElemNamed nm (if t = "g" && hasClass a "node"
        then transformNodeGroupElem t a (transformGroupsL c)
        else XNode.elem t a (transformGroupsL c)) = isElemNamed nm (XNode.elem t a c) := by
      by_cases hg : (t = "g" && hasClass a "node") = true
      · rw [if_pos hg]; rfl
      · rw [if_neg hg]; rfl
    rw [hh]

theorem transformGroupsL_length :
    ∀ l : List XNode, (transformGroupsL l).length = l.length
  | [] => by rw [transformGroupsL_nil]
  | .text s :: rest => by
    rw [transformGroupsL_cons_text, List.length_cons, List.length_cons,
      transformGroupsL_length rest]
  | .elem t a c :: rest => by
    rw [transformGroupsL_cons_elem, List.length_cons, List.length_cons,
      transformGroupsL_length rest]

theorem hideMatching_countP (p : XNode → Bool) (nm : String) :
    ∀ l : List XNode, (hideMatching p l).countP (isElemNamed nm) = l.countP (isElemNamed nm)
  | [] => by rw [hideMatching_nil]
  | .text s :: rest => by
    rw [hideMatching_cons_text, List.countP_cons, List.countP_cons,
      hideMatching_countP p nm rest]
  | .elem t a c :: rest => by
    rw [hideMatching_cons_elem, List.countP_cons, List.countP_cons,
      hideMatching_countP p nm rest]
    have hh : isElemNamed nm (XNode.elem t
        (if p (.elem t a c) then setAttrL a "aria-hidden" "true" else a)
        (hideMatching p c)) = isElemNamed nm (XNode.elem t a c) := rfl
    rw [hh]

theorem hideMatching_length (p : XNode → Bool) :
    ∀ l : List XNode, (hideMatching p l).length = l.length
  | [] => by rw [hideMatching_nil]
  | .text s :: rest => by
    rw [hideMatching_cons_text, List.length_cons, List.length_cons, hideMatching_length p rest]
  | .elem t a c :: rest => by
    rw [hideMatching_cons_elem, List.length_cons, List.length_cons, hideMatching_length p rest]

theorem hideMarkersL_countP (nm : String) :
    ∀ (b : Bool) (l : List XNode),
      (hideMarkersL b l).countP (isElemNamed nm) = l.countP (isElemNamed nm)
  | _, [] => by rw [hideMarkersL_nil]
  | b, .text s :: rest => by
    rw [hideMarkersL_cons_text, List.countP_cons, List.countP_cons,
      hideMarkersL_countP nm b rest]
  | b, .elem t a c :: rest => by
    rw [hideMarkersL_cons_elem, List.countP_cons, List.countP_cons,
      hideMarkersL_countP nm b rest]
    have hh : isElemNamed nm (XNode.elem t
        (if b && t = "marker" then setAttrL a "aria-hidden" "true" else a)
        (hideMarkersL (b || t = "defs") c)) = isElemNamed nm (XNode.elem t a c) := rfl
    rw [hh]

theorem hideMarkersL_length :
    ∀ (b : Bool) (l : List XNode), (hideMarkersL b l).length = l.length
  | _, [] => by rw [hideMarkersL_nil]
  | b, .text s :: rest => by
    rw [hideMarkersL_cons_text, List.length_cons, List.length_cons, hideMarkersL_length b rest]
  | b, .elem t a c :: rest => by
    rw [hideMarkersL_cons_elem, List.length_cons, List.length_cons, hideMarkersL_length b rest]

theorem fsPasses_countP (nm : String) (l : List XNode) :
    (fsPasses l).countP (isElemNamed nm) = l.countP (isElemNamed nm) := by
  unfold fsPasses
  rw [hideMarkersL_countP, hideMatching_countP, transformGroupsL_countP]

theorem fsPasses_length (l : List XNode) : (fsPasses l).length = l.length := by
  unfold fsPasses
  rw [hideMarkersL_length, hideMatching_length, transformGroupsL_length]

theorem applyFSChildren_cases (c : List XNode) :
    applyFSChildren c = c ∨ applyFSChildren c = fsPasses c := by
  unfold applyFSChildren fsPasses
  by_cases h1 : existsDesc idStartsFlowchart c = true
  · rw [if_pos h1]
    by_cases h2 : countDescP isNodeGroup c = 0
    · rw [if_pos h2]
      left
      rfl
    · rw [if_neg h2]
      right
      rfl
  · rw [if_neg h1]
    left
    rfl

theorem transformGroupsL_single_text (s : List Char) :
    transformGroupsL [XNode.text s] = [XNode.text s] := by
  rw [transformGroupsL_cons_text, transformGroupsL_nil]

theorem hideMatching_single_text (p : XNode → Bool) (s : List Char) :
    hideMatching p [XNode.text s] = [XNode.text s] := by
  rw [hideMatching_cons_text, hideMatching_nil]

theorem hideMarkersL_single_text (b : Bool) (s : List Char) :
    hideMarkersL b [XNode.text s] = [XNode.text s] := by
  rw [hideMarkersL_cons_text, hideMarkersL_nil]

theorem fsPasses_cons_tx (t : String) (a : List (String × String)) (s : List Char)
    (l : List XNode)
    (h1 : (t = "g" && hasClass a "node") = false)
    (h2 : isEdgeGroup (XNode.elem t a [XNode.text s]) = false) :
    fsPasses (XNode.elem t a [XNode.text s] :: l)
      = XNode.elem t a [XNode.text s] :: fsPasses l := by
  unfold fsPasses
  rw [transformGroupsL_cons_elem, h1, if_neg Bool.false_ne_true, transformGroupsL_single_text,
    hideMatching_cons_elem, h2, if_neg Bool.false_ne_true, hideMatching_single_text,
    hideMarkersL_cons_elem, Bool.false_and, if_neg Bool.false_ne_true, hideMarkersL_single_text]

theorem fsPasses_nil : fsPasses [] = [] := by
  unfold fsPasses
  rw [transformGroupsL_nil, hideMatching_nil, hideMarkersL_nil]

theorem isElemNamed_titleNode_title (tid : String) (tt : List Char) :
    isElemNamed "title" (titleNode tid tt) = true := rfl

theorem isElemNamed_descNode_title (did : String) (dd : List Char) :
    isElemNamed "title" (descNode did dd) = false := rfl

theorem isElemNamed_titleNode_desc (tid : String) (tt : List Char) :
    isElemNamed "desc" (titleNode tid tt) = false := rfl

theorem isElemNamed_descNode_desc (did : String) (dd : List Char) :
    isElemNamed "desc" (descNode did dd) = true := rfl

theorem fsPasses_cons_TD (tid did : String) (tt dd : List Char) (l : List XNode) :
    fsPasses (titleNode tid tt :: descNode did dd :: l)
      = titleNode tid tt :: descNode did dd :: fsPasses l := by
  unfold titleNode descNode
  rw [fsPasses_cons_tx "title" [("id", tid)] tt _ (by simp) (by simp [isEdgeGroup]),
    fsPasses_cons_tx "desc" [("id", did)] dd _ (by simp) (by simp [isEdgeGroup])]

theorem fsPasses_pair_DT (did tid : String) (dd tt : List Char) :
    fsPasses [descNode did dd, titleNode tid tt] = [descNode did dd, titleNode tid tt] := by
  unfold titleNode descNode
  rw [fsPasses_cons_tx "desc" [("id", did)] dd _ (by simp) (by simp [isEdgeGroup]),
    fsPasses_cons_tx "title" [("id", tid)] tt _ (by simp) (by simp [isEdgeGroup]),
    fsPasses_nil]

theorem a11y_assemble (tt dd : List Char) (tid did : String) (S : List XNode)
    (hdd : dd ≠ [])
    (hS1 : S.countP (isElemNamed "title") = 0) (hS2 : S.countP (isElemNamed "desc") = 0) :
    ∃ c4 c5, a11yWithDesc ⟨some tt, some dd⟩ did (titleNode tid tt :: S) = some c4 ∧
      applyFSChildren c4 = c5 ∧
      c5.countP (isElemNamed "title") = 1 ∧ c5.countP (isElemNamed "desc") = 1 ∧
      (c5 = [descNode did dd, titleNode tid tt] ∨
        ∃ S5, c5 = titleNode tid tt :: descNode did dd :: S5 ∧ S5 ≠ [] ∧
          S5.countP (isElemNamed "title") = 0 ∧ S5.countP (isElemNamed "desc") = 0) := by
  have hdt : truthyOpt (⟨some tt, some dd⟩ : SvgMetadata).description = true :=
    truthy_of_ne_nil dd hdd
  cases S with
  | nil =>
    have hpos0 : descInsertPos [titleNode tid tt] = some 0 := by
      rw [descInsertPos_cons_title (titleNode tid tt) [] (isElemNamed_titleNode_title tid tt)]
      simp
    have happ : applyFSChildren [descNode did dd, titleNode tid tt]
        = [descNode did dd, titleNode tid tt] := by
      rcases applyFSChildren_cases [descNode did dd, titleNode tid tt] with h | h
      · exact h
      · rw [h]
        exact fsPasses_pair_DT did tid dd tt
    refine ⟨[descNode did dd, titleNode tid tt], [descNode did dd, titleNode tid tt],
      ?_, happ, ?_, ?_, Or.inl rfl⟩
    · unfold a11yWithDesc
      rw [if_pos hdt, hpos0]
      rfl
    · rw [List.countP_cons, List.countP_cons, List.countP_nil,
        isElemNamed_titleNode_title, isElemNamed_descNode_title]
      simp
    · rw [List.countP_cons, List.countP_cons, List.countP_nil,
        isElemNamed_titleNode_desc, isElemNamed_descNode_desc]
      simp
  | cons x xs =>
    have hpos1 : descInsertPos (titleNode tid tt :: x :: xs) = some 1 := by
      rw [descInsertPos_cons_title (titleNode tid tt) (x :: xs)
        (isElemNamed_titleNode_title tid tt)]
      have hl : 1 < (x :: xs).length + 1 := by
        simp only [List.length_cons]
        omega
      rw [if_pos hl]
    rcases applyFSChildren_cases (titleNode tid tt :: descNode did dd :: x :: xs) with h | h
    · refine ⟨titleNode tid tt :: descNode did dd :: x :: xs,
        titleNode tid tt :: descNode did dd :: x :: xs, ?_, h, ?_, ?_,
        Or.inr ⟨x :: xs, rfl, by simp, hS1, hS2⟩⟩
      · unfold a11yWithDesc
        rw [if_pos hdt, hpos1]
        rfl
      · rw [List.countP_cons, List.countP_cons, hS1,
          isElemNamed_titleNode_title, isElemNamed_descNode_title]
        simp
      · rw [List.countP_cons, List.countP_cons, hS2,
          isElemNamed_titleNode_desc, isElemNamed_descNode_desc]
        simp
    · have hfp := fsPasses_cons_TD tid did tt dd (x :: xs)
      have hne : fsPasses (x :: xs) ≠ [] := by
        refine List.ne_nil_of_length_pos ?_
        rw [fsPasses_length]
        simp
      refine ⟨titleNode tid tt :: descNode did dd :: x :: xs,
        titleNode tid tt :: descNode did dd :: fsPasses (x :: xs), ?_, by rw [h, hfp], ?_, ?_,
        Or.inr ⟨fsPasses (x :: xs), rfl, hne, by rw [fsPasses_countP]; exact hS1,
          by rw [fsPasses_countP]; exact hS2⟩⟩
      · unfold a11yWithDesc
        rw [if_pos hdt, hpos1]
        rfl
      · rw [List.countP_cons, List.countP_cons, fsPasses_countP, hS1,
          isElemNamed_titleNode_title, isElemNamed_descNode_title]
        simp
      · rw [List.countP_cons, List.countP_cons, fsPasses_countP, hS2,
          isElemNamed_titleNode_desc, isElemNamed_descNode_desc]
        simp

theorem a11y_run (tg : String) (a : List (String × String)) (c : List XNode)
    (tt dd : List Char) (tid did : String) (htt : tt ≠ []) (hdd : dd ≠ [])
    (hS1 : (a11yStrippedChildren c).countP (isElemNamed "title") = 0)
    (hS2 : (a11yStrippedChildren c).countP (isElemNamed "desc") = 0) :
    ∃ c5, applyAccessibilityTransformations (XNode.elem tg a c) ⟨some tt, some dd⟩ tid did =
        some (XNode.elem tg
          (setAttrL (a11yRootAttrs ⟨some tt, some dd⟩ a tid did) "xmlns"
            "http://www.w3.org/2000/svg") c5) ∧
      c5.countP (isElemNamed "title") = 1 ∧ c5.countP (isElemNamed "desc") = 1 ∧
      (c5 = [descNode did dd, titleNode tid tt] ∨
        ∃ S5, c5 = titleNode tid tt :: descNode did dd :: S5 ∧ S5 ≠ [] ∧
          S5.countP (isElemNamed "title") = 0 ∧ S5.countP (isElemNamed "desc") = 0) := by
  obtain ⟨c4, c5, hc4, hc5, h1, h2, hsh⟩ :=
    a11y_assemble tt dd tid did (a11yStrippedChildren c) hdd hS1 hS2
  refine ⟨c5, ?_, h1, h2, hsh⟩
  have hwt : a11yWithTitle ⟨some tt, some dd⟩ tid c
      = titleNode tid tt :: a11yStrippedChildren c := by
    unfold a11yWithTitle
    rw [if_pos
      (truthy_of_ne_nil tt htt : truthyOpt (⟨some tt, some dd⟩ : SvgMetadata).title = true)]
    rfl
  show (match a11yWithDesc ⟨some tt, some dd⟩ did (a11yWithTitle ⟨some tt, some dd⟩ tid c) with
    | none => none
    | some c4 =>
      match applyFlowchartSemantics
          (XNode.elem tg (a11yRootAttrs ⟨some tt, some dd⟩ a tid did) c4) with
      | .elem t2 a3 c5 =>
        some (XNode.elem t2 (setAttrL a3 "xmlns" "http://www.w3.org/2000/svg") c5)
      | .text s => some (XNode.text s)) = _
  rw [hwt, hc4]
  have hfs : applyFlowchartSemantics
      (XNode.elem tg (a11yRootAttrs ⟨some tt, some dd⟩ a tid did) c4)
      = XNode.elem tg (a11yRootAttrs ⟨some tt, some dd⟩ a tid did) c5 := by
    show XNode.elem tg (a11yRootAttrs ⟨some tt, some dd⟩ a tid did) (applyFSChildren c4) = _
    rw [hc5]
  show (match applyFlowchartSemantics
      (XNode.elem tg (a11yRootAttrs ⟨some tt, some dd⟩ a tid did) c4) with
    | XNode.elem t2 a3 c5 =>
      some (XNode.elem t2 (setAttrL a3 "xmlns" "http://www.w3.org/2000/svg") c5)
    | XNode.text s => some (XNode.text s)) = _
  rw [hfs]

theorem strip_of_shape (tid did : String) (tt dd : List Char) (c5 : List XNode)
    (h : c5 = [descNode did dd, titleNode tid tt] ∨
      ∃ S5, c5 = titleNode tid tt :: descNode did dd :: S5 ∧ S5 ≠ [] ∧
        S5.countP (isElemNamed "title") = 0 ∧ S5.countP (isElemNamed "desc") = 0) :
    (a11yStrippedChildren c5).countP (isElemNamed "title") = 0 ∧
      (a11yStrippedChildren c5).countP (isElemNamed "desc") = 0 := by
  rcases h with h | ⟨S5, h, hne, hS1, hS2⟩
  · subst h
    constructor <;>
      simp [a11yStrippedChildren, removeFirstL_cons_elem, removeFirstL_cons_text,
        removeFirstL_nil, isElemNamed, descNode, titleNode]
  · subst h
    unfold a11yStrippedChildren
    rw [removeFirstL_cons_of_pos (isElemNamed "title") (titleNode tid tt)
      (descNode did dd :: S5) (isElemNamed_titleNode_title tid tt)]
    constructor
    · show ((removeFirstL (isElemNamed "desc") (descNode did dd :: S5)).1).countP
        (isElemNamed "title") = 0
      rw [removeFirstL_cons_of_pos (isElemNamed "desc") (descNode did dd) S5
        (isElemNamed_descNode_desc did dd)]
      exact hS1
    · show ((removeFirstL (isElemNamed "desc") (descNode did dd :: S5)).1).countP
        (isElemNamed "desc") = 0
      rw [removeFirstL_cons_of_pos (isElemNamed "desc") (descNode did dd) S5
        (isElemNamed_descNode_desc did dd)]
      exact hS2

theorem a11yRootAttrs_both (a : List (String × String)) (tt dd : List Char) (tid did : String)
    (htt : tt ≠ []) (hdd : dd ≠ []) :
    a11yRootAttrs ⟨some tt, some dd⟩ a tid did
      = setAttrL (setAttrL a "role" "img") "aria-labelledby" (tid ++ " " ++ did) := by
  unfold a11yRootAttrs
  rw [show truthyOpt (⟨some tt, some dd⟩ : SvgMetadata).title = true from
      truthy_of_ne_nil tt htt,
    show truthyOpt (⟨some tt, some dd⟩ : SvgMetadata).description = true from
      truthy_of_ne_nil dd hdd]
  simp

theorem a11yRootAttrs_titleOnly (a : List (String × String)) (tt : List Char) (tid did : String)
    (htt : tt ≠ []) :
    a11yRootAttrs ⟨some tt, none⟩ a tid did
      = setAttrL (setAttrL a "role" "img") "aria-labelledby" tid := by
  unfold a11yRootAttrs
  rw [show truthyOpt (⟨some tt, none⟩ : SvgMetadata).title = true from truthy_of_ne_nil tt htt,
    show truthyOpt (⟨some tt, none⟩ : SvgMetadata).description = false from rfl]
  simp

theorem a11y_run_titleOnly (tg : String) (a : List (String × String)) (c : List XNode)
    (tt : List Char) (tid did : String) :
    applyAccessibilityTransformations (XNode.elem tg a c) ⟨some tt, none⟩ tid did =
      some (XNode.elem tg
        (setAttrL (a11yRootAttrs ⟨some tt, none⟩ a tid did) "xmlns"
          "http://www.w3.org/2000/svg")
        (applyFSChildren (a11yWithTitle ⟨some tt, none⟩ tid c))) := by
  have hwd : a11yWithDesc ⟨some tt, none⟩ did (a11yWithTitle ⟨some tt, none⟩ tid c)
      = some (a11yWithTitle ⟨some tt, none⟩ tid c) := by
    unfold a11yWithDesc
    rw [show truthyOpt (⟨some tt, none⟩ : SvgMetadata).description = false from rfl,
      if_neg Bool.false_ne_true]
  show (match a11yWithDesc ⟨some tt, none⟩ did (a11yWithTitle ⟨some tt, none⟩ tid c) with
    | none => none
    | some c4 =>
      match applyFlowchartSemantics
          (XNode.elem tg (a11yRootAttrs ⟨some tt, none⟩ a tid did) c4) with
      | .elem t2 a3 c5 =>
        some (XNode.elem t2 (setAttrL a3 "xmlns" "http://www.w3.org/2000/svg") c5)
      | .text s => some (XNode.text s)) = _
  rw [hwd]
  rfl

/-- C1 counterexample: the claim's premise "non-null title and description
metadata" is not enough.  The empty string is non-null but JS-falsy, so with
`title = ""` (and a non-empty description) the transformer succeeds yet sets
no `aria-labelledby` attribute at all on the root. -/
theorem existsDesc_nil (p : XNode → Bool) : existsDesc p [] = false := by
  rw [existsDesc]

theorem existsDesc_cons_text (p : XNode → Bool) (s : List Char) (rest : List XNode) :
    existsDesc p (XNode.text s :: rest) =
      ((p (XNode.text s) || false) || existsDesc p rest) := by
  rw [existsDesc]

theorem existsDesc_cons_elem (p : XNode → Bool) (t : String) (a : List (String × String))
    (c : List XNode) (rest : List XNode) :
    existsDesc p (XNode.elem t a c :: rest) =
      ((p (XNode.elem t a c) || existsDesc p c) || existsDesc p rest) := by
  rw [existsDesc]

theorem applyA11y_claim_false_nonnull :
    (⟨some [], some "D".toList⟩ : SvgMetadata).title ≠ none ∧
    (applyAccessibilityTransformations (XNode.elem "svg" [] [])
        ⟨some [], some "D".toList⟩ "t-3" "d-3").map (fun o => getAttrN o "aria-labelledby")
      = some none := by
  constructor
  · simp
  · have h12 : a11yWithTitle ⟨some [], some "D".toList⟩ "t-3" [] = [] := by
      unfold a11yWithTitle
      rw [show truthyOpt (⟨some [], some "D".toList⟩ : SvgMetadata).title = false from rfl,
        if_neg Bool.false_ne_true]
      unfold a11yStrippedChildren
      rw [removeFirstL_nil]
      show (removeFirstL (isElemNamed "desc") ([] : List XNode)).1 = []
      rw [removeFirstL_nil]
    have h3 : a11yWithDesc ⟨some [], some "D".toList⟩ "d-3" []
        = some [descNode "d-3" "D".toList] := rfl
    have h4 : existsDesc idStartsFlowchart [descNode "d-3" "D".toList] = false := by
      unfold descNode
      rw [existsDesc_cons_elem, existsDesc_cons_text, existsDesc_nil]
      rfl
    have h5 : applyFSChildren [descNode "d-3" "D".toList] = [descNode "d-3" "D".toList] := by
      unfold applyFSChildren
      rw [h4, if_neg Bool.false_ne_true]
    show ((match a11yWithDesc ⟨some [], some "D".toList⟩ "d-3"
        (a11yWithTitle ⟨some [], some "D".toList⟩ "t-3" []) with
      | none => none
      | some c4 =>
        match applyFlowchartSemantics (XNode.elem "svg"
            (a11yRootAttrs ⟨some [], some "D".toList⟩ [] "t-3" "d-3") c4) with
        | .elem t2 a3 c5 =>
          some (XNode.elem t2 (setAttrL a3 "xmlns" "http://www.w3.org/2000/svg") c5)
        | .text s => some (XNode.text s)).map (fun o => getAttrN o "aria-labelledby"))
      = some none
    rw [h12, h3]
    have hfs : applyFlowchartSemantics (XNode.elem "svg"
        (a11yRootAttrs ⟨some [], some "D".toList⟩ [] "t-3" "d-3")
        [descNode "d-3" "D".toList])
        = XNode.elem "svg" (a11yRootAttrs ⟨some [], some "D".toList⟩ [] "t-3" "d-3")
          [descNode "d-3" "D".toList] := by
      show XNode.elem "svg" (a11yRootAttrs ⟨some [], some "D".toList⟩ [] "t-3" "d-3")
        (applyFSChildren [descNode "d-3" "D".toList]) = _
      rw [h5]
    show ((match applyFlowchartSemantics (XNode.elem "svg"
        (a11yRootAttrs ⟨some [], some "D".toList⟩ [] "t-3" "d-3")
        [descNode "d-3" "D".toList]) with
      | .elem t2 a3 c5 =>
        some (XNode.elem t2 (setAttrL a3 "xmlns" "http://www.w3.org/2000/svg") c5)
      | .text s => some (XNode.text s)).map (fun o => getAttrN o "aria-labelledby"))
      = some none
    rw [hfs]
    rfl

/-- C1 (amended): with JS-truthy (non-empty, rather than merely non-null)
title and description metadata, on any element root whose attribute list has
at most one `role` entry and whose tree has at most one `title` and one
`desc` descendant, the transformer succeeds; the output root carries exactly
one `role` attribute with value `img`, its `aria-labelledby` is exactly the
title id followed by the description id, and the root has exactly one
`title` and one `desc` child.  Re-running the transformer on the output
again succeeds and again yields exactly one root `title` and one `desc`
child (replacement, not duplication).  With a null description the
`aria-labelledby` lists only the title id. -/
theorem applyA11y_spec (tg : String) (a : List (String × String)) (c : List XNode)
    (tt dd : List Char) (tid did tid2 did2 : String)
    (htt : tt ≠ []) (hdd : dd ≠ [])
    (hrole : a.countP (fun q => q.1 = "role") ≤ 1)
    (htc : countDescP (isElemNamed "title") c ≤ 1)
    (hdc : countDescP (isElemNamed "desc") c ≤ 1) :
    ∃ out, applyAccessibilityTransformations (XNode.elem tg a c) ⟨some tt, some dd⟩ tid did
        = some out ∧
      getAttrN out "role" = some "img" ∧
      rootAttrCount out "role" = 1 ∧
      getAttrN out "aria-labelledby" = some (tid ++ " " ++ did) ∧
      rootChildCount (isElemNamed "title") out = 1 ∧
      rootChildCount (isElemNamed "desc") out = 1 ∧
      (∃ out2, applyAccessibilityTransformations out ⟨some tt, some dd⟩ tid2 did2 = some out2 ∧
        rootChildCount (isElemNamed "title") out2 = 1 ∧
        rootChildCount (isElemNamed "desc") out2 = 1) ∧
      ∃ out3, applyAccessibilityTransformations (XNode.elem tg a c) ⟨some tt, none⟩ tid did
          = some out3 ∧
        getAttrN out3 "aria-labelledby" = some tid := by
  have hstrip := a11yStrippedChildren_counts c htc hdc
  obtain ⟨c5, hrun, h1, h2, hsh⟩ := a11y_run tg a c tt dd tid did htt hdd hstrip.1 hstrip.2
  have hra := a11yRootAttrs_both a tt dd tid did htt hdd
  refine ⟨_, hrun, ?_, ?_, ?_, h1, h2, ?_, ?_⟩
  · show getAttrL (setAttrL (a11yRootAttrs ⟨some tt, some dd⟩ a tid did) "xmlns"
      "http://www.w3.org/2000/svg") "role" = some "img"
    rw [hra, getAttr_setAttr_other _ "xmlns" _ "role" (by decide),
      getAttr_setAttr_other _ "aria-labelledby" _ "role" (by decide),
      getAttr_setAttr_same]
  · show (setAttrL (a11yRootAttrs ⟨some tt, some dd⟩ a tid did) "xmlns"
      "http://www.w3.org/2000/svg").countP (fun q => q.1 = "role") = 1
    rw [hra, countP_setAttr_other _ "xmlns" _ "role" (by decide),
      countP_setAttr_other _ "aria-labelledby" _ "role" (by decide),
      countP_setAttr_same a "role" "img" hrole]
  · show getAttrL (setAttrL (a11yRootAttrs ⟨some tt, some dd⟩ a tid did) "xmlns"
      "http://www.w3.org/2000/svg") "aria-labelledby" = some (tid ++ " " ++ did)
    rw [hra, getAttr_setAttr_other _ "xmlns" _ "aria-labelledby" (by decide),
      getAttr_setAttr_same]
  · have hst := strip_of_shape tid did tt dd c5 hsh
    obtain ⟨c5x, hrun2, h1x, h2x, _⟩ := a11y_run tg
      (setAttrL (a11yRootAttrs ⟨some tt, some dd⟩ a tid did) "xmlns"
        "http://www.w3.org/2000/svg") c5 tt dd tid2 did2 htt hdd hst.1 hst.2
    exact ⟨_, hrun2, h1x, h2x⟩
  · refine ⟨_, a11y_run_titleOnly tg a c tt tid did, ?_⟩
    show getAttrL (setAttrL (a11yRootAttrs ⟨some tt, none⟩ a tid did) "xmlns"
      "http://www.w3.org/2000/svg") "aria-labelledby" = some tid
    rw [a11yRootAttrs_titleOnly a tt tid did htt,
      getAttr_setAttr_other _ "xmlns" _ "aria-labelledby" (by decide),
      getAttr_setAttr_same]

/-- Witness for the amended C1 theorem at a concrete empty `svg` root. -/
theorem applyA11y_spec_witness :
    ("T".toList ≠ ([] : List Char)) ∧ ("D".toList ≠ ([] : List Char)) ∧
    (([] : List (String × String)).countP (fun q => q.1 = "role") ≤ 1) ∧
    (countDescP (isElemNamed "title") ([] : List XNode) ≤ 1) ∧
    (countDescP (isElemNamed "desc") ([] : List XNode) ≤ 1) ∧
    (∃ out, applyAccessibilityTransformations (XNode.elem "svg" [] [])
        ⟨some "T".toList, some "D".toList⟩ "t-a" "d-a" = some out ∧
      getAttrN out "role" = some "img" ∧
      rootAttrCount out "role" = 1 ∧
      getAttrN out "aria-labelledby" = some ("t-a" ++ " " ++ "d-a") ∧
      rootChildCount (isElemNamed "title") out = 1 ∧
      rootChildCount (isElemNamed "desc") out = 1 ∧
      (∃ out2, applyAccessibilityTransformations out ⟨some "T".toList, some "D".toList⟩
          "t-b" "d-b" = some out2 ∧
        rootChildCount (isElemNamed "title") out2 = 1 ∧
        rootChildCount (isElemNamed "desc") out2 = 1) ∧
      ∃ out3, applyAccessibilityTransformations (XNode.elem "svg" [] [])
          ⟨some "T".toList, none⟩ "t-a" "d-a" = some out3 ∧
        getAttrN out3 "aria-labelledby" = some "t-a") :=
  ⟨by decide, by decide, by decide, by simp [countDescP], by simp [countDescP],
    applyA11y_spec "svg" [] [] "T".toList "D".toList "t-a" "d-a" "t-b" "d-b"
      (by decide) (by decide) (by decide) (by simp [countDescP]) (by simp [countDescP])⟩

theorem allDescSat_nil (p q : XNode → Bool) : allDescSat p q [] = true := by
  rw [allDescSat]

theorem allDescSat_cons_text (p q : XNode → Bool) (s : List Char) (r : List XNode) :
    allDescSat p q (XNode.text s :: r) =
      ((!p (XNode.text s) || q (XNode.text s)) && allDescSat p q r) := by
  rw [allDescSat]

theorem allDescSat_cons_elem (p q : XNode → Bool) (t : String) (a : List (String × String))
    (c : List XNode) (r : List XNode) :
    allDescSat p q (XNode.elem t a c :: r) =
      (((!p (XNode.elem t a c) || q (XNode.elem t a c)) && allDescSat p q c) &&
        allDescSat p q r) := by
  rw [allDescSat]

theorem markersHiddenB_nil (b : Bool) : markersHiddenB b [] = true := by
  rw [markersHiddenB]

theorem markersHiddenB_cons_text (b : Bool) (s : List Char) (r : List XNode) :
    markersHiddenB b (XNode.text s :: r) = markersHiddenB b r := by
  rw [markersHiddenB]

theorem markersHiddenB_cons_elem (b : Bool) (t : String) (a : List (String × String))
    (c : List XNode) (r : List XNode) :
    markersHiddenB b (XNode.elem t a c :: r) =
      (((if b && t = "marker" then isHiddenB (XNode.elem t a c) else true) &&
        markersHiddenB (b || t = "defs") c) && markersHiddenB b r) := by
  rw [markersHiddenB]

theorem wf9_nil : wf9 [] = true := by
  rw [wf9]

theorem wf9_cons_text (s : List Char) (r : List XNode) :
    wf9 (XNode.text s :: r) = wf9 r := by
  rw [wf9]

theorem wf9_cons_elem (t : String) (a : List (String × String)) (c : List XNode)
    (r : List XNode) :
    wf9 (XNode.elem t a c :: r) =
      (((!(getAttrL a "role" = some "listitem")) &&
        ((!(t = "g" && hasClass a "node")) ||
          (countDescP isNodeGroup c = 0 && countDescP (isElemNamed "title") c = 0))) &&
      (wf9 c && wf9 r)) := by
  rw [wf9]

theorem hideTexts_nil (k : Nat) : hideTextsAfterFirst k [] = (k, []) := by
  rw [hideTextsAfterFirst]

theorem hideTexts_cons_text (k : Nat) (s : List Char) (rest : List XNode) :
    hideTextsAfterFirst k (XNode.text s :: rest) =
      ((hideTextsAfterFirst k rest).1, XNode.text s :: (hideTextsAfterFirst k rest).2) := by
  rw [hideTextsAfterFirst]

theorem hideTexts_cons_elem (k : Nat) (t : String) (a : List (String × String))
    (c : List XNode) (rest : List XNode) :
    hideTextsAfterFirst k (XNode.elem t a c :: rest) =
      ((hideTextsAfterFirst
          (hideTextsAfterFirst (if t = "text" then k + 1 else k) c).1 rest).1,
        XNode.elem t
          (if t = "text" && decide (0 < k) then setAttrL a "aria-hidden" "true" else a)
          (hideTextsAfterFirst (if t = "text" then k + 1 else k) c).2 ::
        (hideTextsAfterFirst
          (hideTextsAfterFirst (if t = "text" then k + 1 else k) c).1 rest).2) := by
  rw [hideTextsAfterFirst]

theorem isListitem_setAttr_aria (t : String) (a : List (String × String)) (c c' : List XNode) :
    isListitem (XNode.elem t (setAttrL a "aria-hidden" "true") c)
      = isListitem (XNode.elem t a c') := by
  show decide (getAttrL (setAttrL a "aria-hidden" "true") "role" = some "listitem")
    = decide (getAttrL a "role" = some "listitem")
  rw [getAttr_setAttr_other a "aria-hidden" "true" "role" (by decide)]

theorem countDescP_listitem_removeFirstL_le (p : XNode → Bool) :
    ∀ l, countDescP isListitem (removeFirstL p l).1 ≤ countDescP isListitem l
  | [] => by rw [removeFirstL_nil]
  | n :: rest => by
    cases n with
    | text s =>
      rw [removeFirstL_cons_text]
      cases hp : p (XNode.text s) with
      | true =>
        rw [if_pos rfl]
        show countDescP isListitem rest ≤ _
        rw [countDescP_cons_text]
        omega
      | false =>
        rw [if_neg Bool.false_ne_true]
        show countDescP isListitem (XNode.text s :: (removeFirstL p rest).1) ≤ _
        rw [countDescP_cons_text, countDescP_cons_text]
        have := countDescP_listitem_removeFirstL_le p rest
        omega
    | elem t a c =>
      rw [removeFirstL_cons_elem]
      cases hp : p (XNode.elem t a c) with
      | true =>
        rw [if_pos rfl]
        show countDescP isListitem rest ≤ _
        rw [countDescP_cons_elem]
        omega
      | false =>
        rw [if_neg Bool.false_ne_true]
        cases hfc : (removeFirstL p c).2 with
        | true =>
          rw [if_pos rfl]
          show countDescP isListitem (XNode.elem t a (removeFirstL p c).1 :: rest) ≤ _
          rw [countDescP_cons_elem, countDescP_cons_elem]
          have hh : isListitem (XNode.elem t a (removeFirstL p c).1)
              = isListitem (XNode.elem t a c) := rfl
          rw [hh]
          have := countDescP_listitem_removeFirstL_le p c
          omega
        | false =>
          rw [if_neg Bool.false_ne_true]
          show countDescP isListitem (XNode.elem t a c :: (removeFirstL p rest).1) ≤ _
          rw [countDescP_cons_elem, countDescP_cons_elem]
          have := countDescP_listitem_removeFirstL_le p rest
          omega

theorem countDescP_listitem_hideMatching (p : XNode → Bool) :
    ∀ l, countDescP isListitem (hideMatching p l) = countDescP isListitem l
  | [] => by rw [hideMatching_nil]
  | .text s :: rest => by
    rw [hideMatching_cons_text, countDescP_cons_text, countDescP_cons_text,
      countDescP_listitem_hideMatching p rest]
  | .elem t a c :: rest => by
    rw [hideMatching_cons_elem, countDescP_cons_elem, countDescP_cons_elem,
      countDescP_listitem_hideMatching p c, countDescP_listitem_hideMatching p rest]
    have hh : isListitem (XNode.elem t
        (if p (.elem t a c) then setAttrL a "aria-hidden" "true" else a)
        (hideMatching p c)) = isListitem (XNode.elem t a c) := by
      by_cases hp : p (XNode.elem t a c) = true
      · rw [if_pos hp]
        exact isListitem_setAttr_aria t a _ c
      · rw [if_neg hp]
        rfl
    rw [hh]

theorem countDescP_listitem_hideTexts :
    ∀ (k : Nat) (l : List XNode),
      countDescP isListitem (hideTextsAfterFirst k l).2 = countDescP isListitem l
  | _, [] => by rw [hideTexts_nil]
  | k, .text s :: rest => by
    rw [hideTexts_cons_text]
    show countDescP isListitem (XNode.text s :: (hideTextsAfterFirst k rest).2) = _
    rw [countDescP_cons_text, countDescP_cons_text, countDescP_listitem_hideTexts k rest]
  | k, .elem t a c :: rest => by
    rw [hideTexts_cons_elem]
    show countDescP isListitem (XNode.elem t
        (if t = "text" && decide (0 < k) then setAttrL a "aria-hidden" "true" else a)
        (hideTextsAfterFirst (if t = "text" then k + 1 else k) c).2 ::
      (hideTextsAfterFirst
        (hideTextsAfterFirst (if t = "text" then k + 1 else k) c).1 rest).2) = _
    rw [countDescP_cons_elem, countDescP_cons_elem,
      countDescP_listitem_hideTexts (if t = "text" then k + 1 else k) c,
      countDescP_listitem_hideTexts
        (hideTextsAfterFirst (if t = "text" then k + 1 else k) c).1 rest]
    have hh : isListitem (XNode.elem t
        (if t = "text" && decide (0 < k) then setAttrL a "aria-hidden" "true" else a)
        (hideTextsAfterFirst (if t = "text" then k + 1 else k) c).2)
        = isListitem (XNode.elem t a c) := by
      by_cases hx : (t = "text" && decide (0 < k)) = true
      · rw [if_pos hx]
        exact isListitem_setAttr_aria t a _ c
      · rw [if_neg hx]
        rfl
    rw [hh]

theorem countDescP_listitem_hideMarkers :
    ∀ (b : Bool) (l : List XNode),
      countDescP isListitem (hideMarkersL b l) = countDescP isListitem l
  | _, [] => by rw [hideMarkersL_nil]
  | b, .text s :: rest => by
    rw [hideMarkersL_cons_text, countDescP_cons_text, countDescP_cons_text,
      countDescP_listitem_hideMarkers b rest]
  | b, .elem t a c :: rest => by
    rw [hideMarkersL_cons_elem, countDescP_cons_elem, countDescP_cons_elem,
      countDescP_listitem_hideMarkers (b || t = "defs") c,
      countDescP_listitem_hideMarkers b rest]
    have hh : isListitem (XNode.elem t
        (if b && t = "marker" then setAttrL a "aria-hidden" "true" else a)
        (hideMarkersL (b || t = "defs") c)) = isListitem (XNode.elem t a c) := by
      by_cases hx : (b && t = "marker") = true
      · rw [if_pos hx]
        exact isListitem_setAttr_aria t a _ c
      · rw [if_neg hx]
        rfl
    rw [hh]

theorem hideTexts_countP (nm : String) :
    ∀ (k : Nat) (l : List XNode),
      ((hideTextsAfterFirst k l).2).countP (isElemNamed nm) = l.countP (isElemNamed nm)
  | _, [] => by rw [hideTexts_nil]
  | k, .text s :: rest => by
    rw [hideTexts_cons_text]
    show (XNode.text s :: (hideTextsAfterFirst k rest).2).countP (isElemNamed nm) = _
    rw [List.countP_cons, List.countP_cons, hideTexts_countP nm k rest]
  | k, .elem t a c :: rest => by
    rw [hideTexts_cons_elem]
    show (XNode.elem t
        (if t = "text" && decide (0 < k) then setAttrL a "aria-hidden" "true" else a)
        (hideTextsAfterFirst (if t = "text" then k + 1 else k) c).2 ::
      (hideTextsAfterFirst
        (hideTextsAfterFirst (if t = "text" then k + 1 else k) c).1 rest).2).countP
        (isElemNamed nm) = _
    rw [List.countP_cons, List.countP_cons,
      hideTexts_countP nm (hideTextsAfterFirst (if t = "text" then k + 1 else k) c).1 rest]
    have hh : isElemNamed nm (XNode.elem t
        (if t = "text" && decide (0 < k) then setAttrL a "aria-hidden" "true" else a)
        (hideTextsAfterFirst (if t = "text" then k + 1 else k) c).2)
        = isElemNamed nm (XNode.elem t a c) := rfl
    rw [hh]

theorem isHiddenB_setAttr (t : String) (a : List (String × String)) (c : List XNode) :
    isHiddenB (XNode.elem t (setAttrL a "aria-hidden" "true") c) = true := by
  show decide (getAttrL (setAttrL a "aria-hidden" "true") "aria-hidden" = some "true") = true
  rw [getAttr_setAttr_same]
  rfl

theorem allSat_hideMatching_self (p : XNode → Bool)
    (hp : ∀ t a c c', p (XNode.elem t a c) = p (XNode.elem t a c'))
    (hpt : ∀ s, p (XNode.text s) = false) :
    ∀ l, allDescSat p isHiddenB (hideMatching p l) = true
  | [] => by rw [hideMatching_nil, allDescSat_nil]
  | .text s :: rest => by
    rw [hideMatching_cons_text, allDescSat_cons_text, allSat_hideMatching_self p hp hpt rest,
      hpt s]
    rfl
  | .elem t a c :: rest => by
    rw [hideMatching_cons_elem, allDescSat_cons_elem, allSat_hideMatching_self p hp hpt c,
      allSat_hideMatching_self p hp hpt rest]
    cases hx : p (XNode.elem t a c) with
    | true =>
      rw [if_pos rfl]
      rw [isHiddenB_setAttr t a (hideMatching p c)]
      simp
    | false =>
      rw [if_neg Bool.false_ne_true]
      have h1 : p (XNode.elem t a (hideMatching p c)) = false := by
        rw [hp t a (hideMatching p c) c]
        exact hx
      rw [h1]
      rfl

theorem allSat_hideTexts_pres (p : XNode → Bool)
    (hp : ∀ t a c c', p (XNode.elem t a c) = p (XNode.elem t a c')) :
    ∀ (k : Nat) (l : List XNode), allDescSat p isHiddenB l = true →
      allDescSat p isHiddenB (hideTextsAfterFirst k l).2 = true
  | _, [], _ => by
    rw [hideTexts_nil]
    show allDescSat p isHiddenB [] = true
    rw [allDescSat_nil]
  | k, .text s :: rest, h => by
    rw [allDescSat_cons_text, Bool.and_eq_true] at h
    rw [hideTexts_cons_text]
    show allDescSat p isHiddenB (XNode.text s :: (hideTextsAfterFirst k rest).2) = true
    rw [allDescSat_cons_text, h.1, allSat_hideTexts_pres p hp k rest h.2]
    rfl
  | k, .elem t a c :: rest, h => by
    rw [allDescSat_cons_elem, Bool.and_eq_true, Bool.and_eq_true] at h
    rw [hideTexts_cons_elem]
    show allDescSat p isHiddenB (XNode.elem t
        (if t = "text" && decide (0 < k) then setAttrL a "aria-hidden" "true" else a)
        (hideTextsAfterFirst (if t = "text" then k + 1 else k) c).2 ::
      (hideTextsAfterFirst
        (hideTextsAfterFirst (if t = "text" then k + 1 else k) c).1 rest).2) = true
    rw [allDescSat_cons_elem,
      allSat_hideTexts_pres p hp (if t = "text" then k + 1 else k) c h.1.2,
      allSat_hideTexts_pres p hp
        (hideTextsAfterFirst (if t = "text" then k + 1 else k) c).1 rest h.2]
    by_cases hx : (t = "text" && decide (0 < k)) = true
    · rw [if_pos hx,
        isHiddenB_setAttr t a (hideTextsAfterFirst (if t = "text" then k + 1 else k) c).2]
      simp
    · rw [if_neg hx]
      have h1 : p (XNode.elem t a (hideTextsAfterFirst (if t = "text" then k + 1 else k) c).2)
          = p (XNode.elem t a c) := hp t a _ c
      have h2 : isHiddenB
          (XNode.elem t a (hideTextsAfterFirst (if t = "text" then k + 1 else k) c).2)
          = isHiddenB (XNode.elem t a c) := rfl
      rw [h1, h2, h.1.1]
      rfl

theorem allSat_hideMarkers_pres (p : XNode → Bool)
    (hp : ∀ t a c c', p (XNode.elem t a c) = p (XNode.elem t a c')) :
    ∀ (b : Bool) (l : List XNode), allDescSat p isHiddenB l = true →
      allDescSat p isHiddenB (hideMarkersL b l) = true
  | _, [], _ => by rw [hideMarkersL_nil, allDescSat_nil]
  | b, .text s :: rest, h => by
    rw [allDescSat_cons_text, Bool.and_eq_true] at h
    rw [hideMarkersL_cons_text, allDescSat_cons_text, h.1,
      allSat_hideMarkers_pres p hp b rest h.2]
    rfl
  | b, .elem t a c :: rest, h => by
    rw [allDescSat_cons_elem, Bool.and_eq_true, Bool.and_eq_true] at h
    rw [hideMarkersL_cons_elem, allDescSat_cons_elem,
      allSat_hideMarkers_pres p hp (b || t = "defs") c h.1.2,
      allSat_hideMarkers_pres p hp b rest h.2]
    by_cases hx : (b && t = "marker") = true
    · rw [if_pos hx, isHiddenB_setAttr t a (hideMarkersL (b || t = "defs") c)]
      simp
    · rw [if_neg hx]
      have h1 : p (XNode.elem t a (hideMarkersL (b || t = "defs") c))
          = p (XNode.elem t a c) := hp t a _ c
      have h2 : isHiddenB (XNode.elem t a (hideMarkersL (b || t = "defs") c))
          = isHiddenB (XNode.elem t a c) := rfl
      rw [h1, h2, h.1.1]
      rfl

theorem markersHidden_hideMarkers :
    ∀ (b : Bool) (l : List XNode), markersHiddenB b (hideMarkersL b l) = true
  | _, [] => by rw [hideMarkersL_nil, markersHiddenB_nil]
  | b, .text s :: rest => by
    rw [hideMarkersL_cons_text, markersHiddenB_cons_text, markersHidden_hideMarkers b rest]
  | b, .elem t a c :: rest => by
    rw [hideMarkersL_cons_elem, markersHiddenB_cons_elem,
      markersHidden_hideMarkers (b || t = "defs") c, markersHidden_hideMarkers b rest]
    by_cases hx : (b && t = "marker") = true
    · rw [if_pos hx, if_pos hx, isHiddenB_setAttr t a (hideMarkersL (b || t = "defs") c)]
      rfl
    · rw [if_neg hx]
      rfl

theorem hideTexts_single_tn (k : Nat) (s : List Char) :
    hideTextsAfterFirst k [XNode.text s] = (k, [XNode.text s]) := by
  rw [hideTexts_cons_text, hideTexts_nil]

theorem transformNodeGroup_spec (t : String) (a : List (String × String)) (c : List XNode)
    (hrole : a.countP (fun q => q.1 = "role") ≤ 1)
    (htitle : countDescP (isElemNamed "title") c ≤ 1) :
    ∃ c4, transformNodeGroupElem t a c = XNode.elem t (setAttrL a "role" "listitem") c4 ∧
      getAttrL (setAttrL a "role" "listitem") "role" = some "listitem" ∧
      (setAttrL a "role" "listitem").countP (fun q => q.1 = "role") = 1 ∧
      allDescSat isShapeElem isHiddenB c4 = true ∧
      (jsTrim (joinNodeTexts (collectTextElems c)) ≠ [] →
        ∃ c5, c4 = XNode.elem "title" []
            [.text (jsTrim (joinNodeTexts (collectTextElems c)))] :: c5 ∧
          c5.countP (isElemNamed "title") = 0) := by
  have hcnt : ((removeFirstL (isElemNamed "title") c).1).countP (isElemNamed "title") = 0 := by
    have hc1 : countDescP (isElemNamed "title") (removeFirstL (isElemNamed "title") c).1 = 0 :=
      countDescP_removeFirstL_self "title" c htitle
    exact Nat.le_zero.1 (le_trans (countP_le_countDescP _ _) (le_of_eq hc1))
  refine ⟨if 1 < (collectTextElems c).length then
      (hideTextsAfterFirst 0 (hideMatching isShapeElem
        (if (jsTrim (joinNodeTexts (collectTextElems c))).isEmpty then
          (removeFirstL (isElemNamed "title") c).1
         else XNode.elem "title" [] [.text (jsTrim (joinNodeTexts (collectTextElems c)))] ::
          (removeFirstL (isElemNamed "title") c).1))).2
    else hideMatching isShapeElem
        (if (jsTrim (joinNodeTexts (collectTextElems c))).isEmpty then
          (removeFirstL (isElemNamed "title") c).1
         else XNode.elem "title" [] [.text (jsTrim (joinNodeTexts (collectTextElems c)))] ::
          (removeFirstL (isElemNamed "title") c).1),
    rfl, getAttr_setAttr_same a "role" "listitem",
    countP_setAttr_same a "role" "listitem" hrole, ?_, ?_⟩
  · by_cases hfrag : 1 < (collectTextElems c).length
    · rw [if_pos hfrag]
      exact allSat_hideTexts_pres isShapeElem (fun _ _ _ _ => rfl) 0 _
        (allSat_hideMatching_self isShapeElem (fun _ _ _ _ => rfl) (fun _ => rfl) _)
    · rw [if_neg hfrag]
      exact allSat_hideMatching_self isShapeElem (fun _ _ _ _ => rfl) (fun _ => rfl) _
  · intro hnt
    have hne : (jsTrim (joinNodeTexts (collectTextElems c))).isEmpty = false := by
      cases hx : jsTrim (joinNodeTexts (collectTextElems c)) with
      | nil => exact absurd hx hnt
      | cons y ys => rfl
    rw [hne, if_neg Bool.false_ne_true]
    have hhm : hideMatching isShapeElem
        (XNode.elem "title" [] [XNode.text (jsTrim (joinNodeTexts (collectTextElems c)))] ::
          (removeFirstL (isElemNamed "title") c).1)
        = XNode.elem "title" [] [XNode.text (jsTrim (joinNodeTexts (collectTextElems c)))] ::
          hideMatching isShapeElem (removeFirstL (isElemNamed "title") c).1 := by
      rw [hideMatching_cons_elem, hideMatching_single_text,
        show isShapeElem (XNode.elem "title" ([] : List (String × String))
          [XNode.text (jsTrim (joinNodeTexts (collectTextElems c)))]) = false from rfl,
        if_neg Bool.false_ne_true]
    by_cases hfrag : 1 < (collectTextElems c).length
    · rw [if_pos hfrag, hhm, hideTexts_cons_elem, hideTexts_single_tn,
        show (decide (("title" : String) = "text") && decide (0 < 0)) = false from rfl,
        if_neg Bool.false_ne_true]
      refine ⟨_, rfl, ?_⟩
      rw [hideTexts_countP, hideMatching_countP]
      exact hcnt
    · rw [if_neg hfrag, hhm]
      refine ⟨hideMatching isShapeElem (removeFirstL (isElemNamed "title") c).1, rfl, ?_⟩
      rw [hideMatching_countP]
      exact hcnt

theorem isListitem_roleSet (t : String) (a : List (String × String)) (c : List XNode) :
    isListitem (XNode.elem t (setAttrL a "role" "listitem") c) = true := by
  show decide (getAttrL (setAttrL a "role" "listitem") "role" = some "listitem") = true
  rw [getAttr_setAttr_same]
  rfl

theorem transformNodeGroup_listitem_count (t : String) (a : List (String × String))
    (X : List XNode) (hX : countDescP isListitem X = 0) :
    ∃ c4, transformNodeGroupElem t a X = XNode.elem t (setAttrL a "role" "listitem") c4 ∧
      countDescP isListitem c4 = 0 := by
  have hR1 : countDescP isListitem (removeFirstL (isElemNamed "title") X).1 = 0 :=
    Nat.le_zero.1 (le_trans (countDescP_listitem_removeFirstL_le _ X) (le_of_eq hX))
  have hC2 : countDescP isListitem
      (if (jsTrim (joinNodeTexts (collectTextElems X))).isEmpty then
        (removeFirstL (isElemNamed "title") X).1
       else XNode.elem "title" [] [.text (jsTrim (joinNodeTexts (collectTextElems X)))] ::
        (removeFirstL (isElemNamed "title") X).1) = 0 := by
    by_cases hie : (jsTrim (joinNodeTexts (collectTextElems X))).isEmpty = true
    · rw [if_pos hie]
      exact hR1
    · rw [if_neg hie, countDescP_cons_elem, countDescP_cons_text, countDescP_nil,
        show isListitem (XNode.elem "title" ([] : List (String × String))
          [XNode.text (jsTrim (joinNodeTexts (collectTextElems X)))]) = false from rfl,
        show isListitem (XNode.text (jsTrim (joinNodeTexts (collectTextElems X)))) = false
          from rfl]
      simp [hR1]
  refine ⟨_, rfl, ?_⟩
  by_cases hfrag : 1 < (collectTextElems X).length
  · rw [if_pos hfrag, countDescP_listitem_hideTexts, countDescP_listitem_hideMatching]
    exact hC2
  · rw [if_neg hfrag, countDescP_listitem_hideMatching]
    exact hC2

theorem tgL_listitem_count : ∀ l, wf9 l = true →
    countDescP isListitem (transformGroupsL l) = countDescP isNodeGroup l
  | [], _ => by rw [transformGroupsL_nil, countDescP_nil, countDescP_nil]
  | .text s :: rest, h => by
    rw [wf9_cons_text] at h
    rw [transformGroupsL_cons_text, countDescP_cons_text, countDescP_cons_text,
      tgL_listitem_count rest h,
      show isListitem (XNode.text s) = false from rfl,
      show isNodeGroup (XNode.text s) = false from rfl]
  | .elem t a c :: rest, h => by
    rw [wf9_cons_elem] at h
    simp only [Bool.and_eq_true] at h
    cases hg : (t = "g" && hasClass a "node") with
    | false =>
      rw [transformGroupsL_cons_elem, hg, if_neg Bool.false_ne_true,
        countDescP_cons_elem, countDescP_cons_elem,
        tgL_listitem_count c h.2.1, tgL_listitem_count rest h.2.2]
      have hr : isListitem (XNode.elem t a (transformGroupsL c)) = false := by
        show decide (getAttrL a "role" = some "listitem") = false
        cases hx : decide (getAttrL a "role" = some "listitem") with
        | false => rfl
        | true =>
          have h11 := h.1.1
          rw [hx] at h11
          cases h11
      rw [hr, show isNodeGroup (XNode.elem t a c) = (t = "g" && hasClass a "node") from rfl,
        hg]
    | true =>
      have hgc : (decide (countDescP isNodeGroup c = 0) &&
          decide (countDescP (isElemNamed "title") c = 0)) = true := by
        have h2 := h.1.2
        rw [hg] at h2
        simpa using h2
      simp only [Bool.and_eq_true, decide_eq_true_eq] at hgc
      have hX : countDescP isListitem (transformGroupsL c) = 0 := by
        rw [tgL_listitem_count c h.2.1]
        exact hgc.1
      obtain ⟨c4g, hg4, hcnt4⟩ := transformNodeGroup_listitem_count t a (transformGroupsL c) hX
      rw [transformGroupsL_cons_elem, hg, if_pos rfl, hg4,
        countDescP_cons_elem, countDescP_cons_elem,
        isListitem_roleSet, hcnt4, tgL_listitem_count rest h.2.2,
        show isNodeGroup (XNode.elem t a c) = (t = "g" && hasClass a "node") from rfl, hg,
        hgc.1]

/-- C9: on a flowchart vector document (flowchart structural marker present,
at least one rendered node group) that is renderer-well-formed (no
pre-existing `role="listitem"`, no node group nesting another node group or
carrying a pre-existing `title`), the semantics pass leaves the root intact
and produces children in which the number of `role="listitem"` carriers is
exactly the number of node groups of the input, every edge/connector group
is marked `aria-hidden`, and every `marker` under a `defs` ancestor is
marked `aria-hidden`.  Moreover the per-group loop body, on any group with
at most one `role` attribute and at most one `title` descendant, sets
`role="listitem"` (exactly one `role` attribute), marks every decorative
shape descendant `aria-hidden`, and when the rendered content contains text
replaces rather than duplicates the title: the output starts with exactly
one `title` child holding the non-empty extracted text, with no further
`title` child at the top level. -/
theorem applyFlowchartSemantics_spec (tg : String) (ta : List (String × String))
    (c : List XNode) (tG : String) (aG : List (String × String)) (cG : List XNode)
    (hwf : wf9 c = true)
    (hfc : existsDesc idStartsFlowchart c = true)
    (hnz : countDescP isNodeGroup c ≠ 0)
    (hroleG : aG.countP (fun q => q.1 = "role") ≤ 1)
    (htitleG : countDescP (isElemNamed "title") cG ≤ 1) :
    ∃ out, applyFlowchartSemantics (XNode.elem tg ta c) = XNode.elem tg ta out ∧
      countDescP isListitem out = countDescP isNodeGroup c ∧
      allDescSat isEdgeGroup isHiddenB out = true ∧
      markersHiddenB false out = true ∧
      ∃ c4, transformNodeGroupElem tG aG cG
          = XNode.elem tG (setAttrL aG "role" "listitem") c4 ∧
        getAttrL (setAttrL aG "role" "listitem") "role" = some "listitem" ∧
        (setAttrL aG "role" "listitem").countP (fun q => q.1 = "role") = 1 ∧
        allDescSat isShapeElem isHiddenB c4 = true ∧
        (jsTrim (joinNodeTexts (collectTextElems cG)) ≠ [] →
          ∃ c5, c4 = XNode.elem "title" []
              [.text (jsTrim (joinNodeTexts (collectTextElems cG)))] :: c5 ∧
            c5.countP (isElemNamed "title") = 0) := by
  have hout : applyFSChildren c
      = hideMarkersL false (hideMatching isEdgeGroup (transformGroupsL c)) := by
    unfold applyFSChildren
    rw [if_pos hfc, if_neg hnz]
  refine ⟨hideMarkersL false (hideMatching isEdgeGroup (transformGroupsL c)),
    ?_, ?_, ?_, markersHidden_hideMarkers false _,
    transformNodeGroup_spec tG aG cG hroleG htitleG⟩
  · show XNode.elem tg ta (applyFSChildren c) = _
    rw [hout]
  · rw [countDescP_listitem_hideMarkers, countDescP_listitem_hideMatching,
      tgL_listitem_count c hwf]
  · exact allSat_hideMarkers_pres isEdgeGroup (fun _ _ _ _ => rfl) false _
      (allSat_hideMatching_self isEdgeGroup (fun _ _ _ _ => rfl) (fun _ => rfl) _)

/-- Witness for the C9 theorem at a one-node-group flowchart document. -/
theorem applyFlowchartSemantics_spec_witness :
    wf9 [XNode.elem "g" [("id", "flowchart-1"), ("class", "node")] []] = true ∧
    existsDesc idStartsFlowchart
      [XNode.elem "g" [("id", "flowchart-1"), ("class", "node")] []] = true ∧
    countDescP isNodeGroup [XNode.elem "g" [("id", "flowchart-1"), ("class", "node")] []]
      ≠ 0 ∧
    (∃ out, applyFlowchartSemantics (XNode.elem "svg" []
        [XNode.elem "g" [("id", "flowchart-1"), ("class", "node")] []])
        = XNode.elem "svg" [] out ∧
      countDescP isListitem out
        = countDescP isNodeGroup
            [XNode.elem "g" [("id", "flowchart-1"), ("class", "node")] []] ∧
      allDescSat isEdgeGroup isHiddenB out = true ∧
      markersHiddenB false out = true ∧
      ∃ c4, transformNodeGroupElem "g" [] []
          = XNode.elem "g" (setAttrL [] "role" "listitem") c4 ∧
        getAttrL (setAttrL [] "role" "listitem") "role" = some "listitem" ∧
        (setAttrL [] "role" "listitem").countP (fun q => q.1 = "role") = 1 ∧
        allDescSat isShapeElem isHiddenB c4 = true ∧
        (jsTrim (joinNodeTexts (collectTextElems [])) ≠ [] →
          ∃ c5, c4 = XNode.elem "title" []
              [.text (jsTrim (joinNodeTexts (collectTextElems [])))] :: c5 ∧
            c5.countP (isElemNamed "title") = 0)) :=
  ⟨by rw [wf9_cons_elem, countDescP_nil, countDescP_nil, wf9_nil]; rfl,
    by rw [existsDesc_cons_elem, existsDesc_nil]; rfl,
    by rw [countDescP_cons_elem, countDescP_nil]; decide,
    applyFlowchartSemantics_spec "svg" []
      [XNode.elem "g" [("id", "flowchart-1"), ("class", "node")] []] "g" [] []
      (by rw [wf9_cons_elem, countDescP_nil, countDescP_nil, wf9_nil]; rfl)
      (by rw [existsDesc_cons_elem, existsDesc_nil]; rfl)
      (by rw [countDescP_cons_elem, countDescP_nil]; decide)
      (by decide)
      (by rw [countDescP_nil]; decide)⟩
